import Mathlib

/-!
Shallow embedding of the `managed-timer` core (`SuperTimerBase`, `SuperTimer`,
`SuperCountdown` from the repository's timer source) and proofs about the
frozen claims.

Modelling conventions:
* JavaScript numbers are modelled as rationals (`ℚ`); `Math.round` is `round`
  and `Math.floor` is `Int.floor`, which agree with the JS functions on all
  rational values (JS `Math.round` rounds half toward +∞, as does Mathlib's
  `round` via `round x = ⌊x + 1/2⌋`).
* `performance.now()` is an explicit `now : ℚ` argument threaded into each
  operation; a single public call reads the clock once (the drift within one
  synchronous call is not modelled).
* JS `Map<string, handle>` fields become association lists with
  replace-or-append `set` semantics; JS `Set<string>` fields become
  duplicate-free lists; `Record<string, number>` keyed by the four callback
  type strings becomes a `KindMap` (a JS absent key reads as `0`/`[]`, which
  is what the source's falsiness test `!this.callbackIdSeeds[t]` checks).
* The host scheduler is modelled explicitly: fresh handles come from a
  counter, and `pendingTimeouts` / `pendingIntervals` / `pendingRafs` hold
  the host-side registrations that are still pending (scheduled and neither
  fired nor cancelled), together with the data the scheduled closure
  captured.  Firing a repeating interval is the explicit step
  `fireInterval`.
* User callback actions are opaque: executing one records the history event
  and bookkeeping exactly as the source does, but the user function itself
  has no effect on engine state (re-entrant user actions are out of scope).
* Methods that `throw` return an `Option TimerError` next to the state;
  mutations performed before the throw are kept in the returned state, as in
  JavaScript.
-/

set_option maxRecDepth 8000

namespace ManagedTimer

/-- The four callback types of `SuperTimerCallbackBase.type`. -/
inductive CbType where
  | checkpoint
  | checkpointOnce
  | tick
  | tickReset
deriving DecidableEq, Repr

/-- The string used for a `CbType` in auto-generated names and error
messages (the TS string literals of the `type` union). -/
def CbType.str : CbType → String
  | .checkpoint => "checkpoint"
  | .checkpointOnce => "checkpoint-once"
  | .tick => "tick"
  | .tickReset => "tick-reset"

/-- A total map keyed by the four callback types, modelling the
`Record<string, _>` fields `callbackIdSeeds` and `callbackNames` (kept as a
four-field structure so that state equality stays decidable). -/
structure KindMap (α : Type) where
  checkpoint : α
  checkpointOnce : α
  tick : α
  tickReset : α
deriving DecidableEq, Repr

def KindMap.get (m : KindMap α) : CbType → α
  | .checkpoint => m.checkpoint
  | .checkpointOnce => m.checkpointOnce
  | .tick => m.tick
  | .tickReset => m.tickReset

def KindMap.set (m : KindMap α) : CbType → α → KindMap α
  | .checkpoint, v => { m with checkpoint := v }
  | .checkpointOnce, v => { m with checkpointOnce := v }
  | .tick, v => { m with tick := v }
  | .tickReset, v => { m with tickReset := v }

def KindMap.const (v : α) : KindMap α := ⟨v, v, v, v⟩

/-- `Map.set`: replace the value under an existing key, else append. -/
def mapSet (m : List (String × ℕ)) (k : String) (v : ℕ) : List (String × ℕ) :=
  match m with
  | [] => [(k, v)]
  | (k₀, v₀) :: rest =>
    if k₀ = k then (k, v) :: rest else (k₀, v₀) :: mapSet rest k v

/-- `Map.get`: first binding of the key, if any. -/
def mapGet (m : List (String × ℕ)) (k : String) : Option ℕ :=
  match m with
  | [] => none
  | (k₀, v₀) :: rest => if k₀ = k then some v₀ else mapGet rest k

/-- `Map.delete`: drop the bindings of the key. -/
def mapDelete (m : List (String × ℕ)) (k : String) : List (String × ℕ) :=
  m.filter (fun p => p.1 ≠ k)

/-- `Set.add` on a duplicate-free list. -/
def setAdd (l : List String) (x : String) : List String :=
  if x ∈ l then l else l ++ [x]

/-- `Set.delete` on a duplicate-free list. -/
def setDelete (l : List String) (x : String) : List String :=
  l.filter (fun y => y ≠ x)

/-- The `InternalCallback` record: a user registration plus the derived
fields `lastExecutionMs` and `registeredAt` added by `registerCallbacks`.
The user `callback` function is opaque and therefore not stored. -/
structure InternalCallback where
  name : String
  type : CbType
  timeMs : ℚ
  requireAnimationFrame : Bool
  executeOnUpdate : Bool
  logExecutions : Bool
  disableTickDriftCompensation : Bool
  lastExecutionMs : ℚ
  registeredAt : ℚ
deriving DecidableEq, Repr

/-- `TimerEventType`, the `event` field of a history record. -/
inductive EventType where
  | create
  | pause
  | unpause
  | start
  | checkpoint
  | tick
  | setTime
  | addTime
  | reset
  | setSpeed
deriving DecidableEq, Repr

/-- The `data` payload of a history event.  The source stores either the
firing callback's name, the new speed value, or an interpolated message
string containing the `addTime`/`setTime` argument; the message strings are
modelled by the numeric value they embed. -/
inductive EventData where
  | name (s : String)
  | speedVal (q : ℚ)
  | addTimeMsg (ms : ℚ)
  | setTimeMsg (ms : ℚ)
deriving DecidableEq, Repr

/-- A `TimerEvent` history record.  The wall-clock `date` stamp is not
modelled (no claim mentions it). -/
structure TimerEvent where
  event : EventType
  elapsedMs : ℚ
  data : Option EventData
deriving DecidableEq, Repr

/-- What the closure passed to `setTimeout` in `handleCheckpointCallback`
captured: the (possibly copied) callback record, the event type label, the
optional source callback (captured by name), and the computed delay. -/
structure TimeoutPayload where
  cb : InternalCallback
  eventType : EventType
  sourceName : Option String
  delayMs : ℚ
deriving DecidableEq, Repr

/-- What the closure passed to `setInterval` in `handleTickResetCallback`
captured: the callback (identified by name; the source shares the registry
object by reference) and the interval length handed to the host. -/
structure IntervalPayload where
  cbName : String
  intervalMs : ℚ
deriving DecidableEq, Repr

/-- What a pending `requestAnimationFrame` registration will do when the
frame fires. -/
inductive RafPayload where
  /-- the deferred execution scheduled by `createEventAndInvokeCallback`
  for a frame-synced callback: set `lastExecutionMs` of the source (or the
  callback itself) to the captured elapsed snapshot, then invoke. -/
  | deferredExec (cbName : String) (sourceName : Option String) (elapsedSnapshot : ℤ)
  /-- one turn of the self-rescheduling `handleRafCallback` loop. -/
  | rafLoop (cbName : String)
deriving DecidableEq, Repr

/-- The state of one `SuperTimerBase` instance, together with the state of
the host scheduler it talks to. -/
structure TimerState where
  id : ℕ
  callbacks : List InternalCallback
  history : List TimerEvent
  unpausedAt : Option ℚ
  pausedAt : ℚ
  elapsedMs : ℚ
  timeouts : List (String × ℕ)
  intervals : List (String × ℕ)
  rafs : List (String × ℕ)
  callbackIdSeeds : KindMap ℕ
  callbackNames : KindMap (List String)
  disposed : Bool
  speed : ℚ
  name : String
  nextHandle : ℕ
  pendingTimeouts : List (ℕ × TimeoutPayload)
  pendingIntervals : List (ℕ × IntervalPayload)
  pendingRafs : List (ℕ × RafPayload)
deriving DecidableEq, Repr

/-- The disposed-error thrown by `checkDisposed`, and the name-conflict
error thrown by `registerCallbacks` (carrying the callback type and the
originally supplied name, the two values interpolated into the message). -/
inductive TimerError where
  | disposed (timerName : String)
  | nameConflict (kind : CbType) (suppliedName : Option String)
deriving DecidableEq, Repr

instance {ε α : Type} [DecidableEq ε] [DecidableEq α] : DecidableEq (Except ε α) :=
  fun x y =>
    match x, y with
    | .ok a, .ok b =>
      if h : a = b then isTrue (congrArg Except.ok h)
      else isFalse (fun hc => h (Except.ok.inj hc))
    | .error a, .error b =>
      if h : a = b then isTrue (congrArg Except.error h)
      else isFalse (fun hc => h (Except.error.inj hc))
    | .ok _, .error _ => isFalse (fun hc => Except.noConfusion hc)
    | .error _, .ok _ => isFalse (fun hc => Except.noConfusion hc)

/-- A timer as freshly constructed: paused, elapsed 0, empty registry and
history (the constructor pushes no event), handle counter at 1.  The
constructor's `registerCallbacks(options.callbacks)` call is applied
separately by callers of this definition. -/
def freshTimer (id : ℕ) (nowAtConstruction : ℚ) (speed : ℚ) (name : String) : TimerState :=
  { id := id
    callbacks := []
    history := []
    unpausedAt := none
    pausedAt := nowAtConstruction
    elapsedMs := 0
    timeouts := []
    intervals := []
    rafs := []
    callbackIdSeeds := KindMap.const 0
    callbackNames := KindMap.const []
    disposed := false
    speed := if speed = 0 then 1 else speed
    name := name
    nextHandle := 1
    pendingTimeouts := []
    pendingIntervals := []
    pendingRafs := [] }

/-- `getElapsedMs` without the `checkDisposed` guard, as used internally
(within one public call `disposed` never changes, so the inner guards of
the source are no-ops once the outer one has passed).  Paused: the
accumulated total, rounded.  Running: accumulated total plus
`(now − unpausedAt) × speed`, rounded. -/
def getElapsedMsRaw (s : TimerState) (now : ℚ) : ℤ :=
  match s.unpausedAt with
  | none => round s.elapsedMs
  | some u => round (s.elapsedMs + (now - u) * s.speed)

/-- Public `getElapsedMs`: `checkDisposed` then the elapsed computation. -/
def getElapsedMs (s : TimerState) (now : ℚ) : Except TimerError ℤ :=
  if s.disposed then .error (.disposed s.name) else .ok (getElapsedMsRaw s now)

/-- Append one event to the history. -/
def pushEvent (s : TimerState) (e : TimerEvent) : TimerState :=
  { s with history := s.history ++ [e] }

/-- Mutate `lastExecutionMs` of the registry entries carrying the given
name (the source mutates the one shared object; names are unique per kind,
and in every scenario the claims exercise, globally). -/
def setLastExecution (s : TimerState) (n : String) (v : ℚ) : TimerState :=
  { s with callbacks :=
      s.callbacks.map (fun cb => if cb.name = n then { cb with lastExecutionMs := v } else cb) }

/-- `clearTimeouts(excludeIntervals)`.  All timeout handles in the map are
cancelled, then the map is cleared.  Unless intervals are excluded, the
interval loop cancels only the map's FIRST handle — the source calls
`this.intervals.clear()` inside the `for … of this.intervals.values()`
loop, which empties the map after the first iteration and thereby ends the
iteration, leaking every remaining host interval — and all raf handles are
cancelled before both maps are cleared. -/
def clearTimeouts (s : TimerState) (excludeIntervals : Bool) : TimerState :=
  let cancelled := s.timeouts.map (fun p => p.2)
  let s := { s with
    pendingTimeouts := s.pendingTimeouts.filter (fun p => p.1 ∉ cancelled)
    timeouts := [] }
  if excludeIntervals then s
  else
    let s := match s.intervals with
      | [] => { s with intervals := [] }
      | (_, h) :: _ =>
        { s with
          pendingIntervals := s.pendingIntervals.filter (fun p => p.1 ≠ h)
          intervals := [] }
    let cancelledRafs := s.rafs.map (fun p => p.2)
    { s with
      pendingRafs := s.pendingRafs.filter (fun p => p.1 ∉ cancelledRafs)
      rafs := [] }

/-- `createEventAndInvokeCallback(callback, eventType, sourceCallback)`:
record a history event (when an event type is given), then either defer the
invocation to the next animation frame (frame-synced callbacks; the elapsed
snapshot is captured now) or stamp `lastExecutionMs` on the source callback
(by default the callback itself) and invoke the opaque user action. -/
def createEventAndInvokeCallback (s : TimerState) (cb : InternalCallback)
    (eventType : Option EventType) (sourceName : Option String) (now : ℚ) : TimerState :=
  let elapsed := getElapsedMsRaw s now
  let s := match eventType with
    | some et => pushEvent s { event := et, elapsedMs := (elapsed : ℚ), data := some (.name cb.name) }
    | none => s
  if cb.requireAnimationFrame then
    { s with
      nextHandle := s.nextHandle + 1
      pendingRafs := s.pendingRafs ++ [(s.nextHandle, .deferredExec cb.name sourceName elapsed)]
      rafs := mapSet s.rafs cb.name s.nextHandle }
  else
    setLastExecution s (sourceName.getD cb.name) (elapsed : ℚ)

/-- `handleCheckpointCallback(callback, eventType, sourceCallback)`:
schedule a one-shot host timeout after `(timeMs − elapsed) / speed`; if that
delay is ≤ 0 the checkpoint lies in the past and nothing is scheduled.  The
scheduled closure's captured data is kept in the timeout payload. -/
def handleCheckpointCallback (s : TimerState) (cb : InternalCallback)
    (eventType : EventType) (sourceName : Option String) (now : ℚ) : TimerState :=
  let elapsed := getElapsedMsRaw s now
  let msUntilCheckpoint : ℚ := (cb.timeMs - (elapsed : ℚ)) / s.speed
  if msUntilCheckpoint ≤ 0 then s
  else
    { s with
      nextHandle := s.nextHandle + 1
      pendingTimeouts := s.pendingTimeouts ++
        [(s.nextHandle,
          { cb := cb, eventType := eventType, sourceName := sourceName,
            delayMs := msUntilCheckpoint })]
      timeouts := mapSet s.timeouts cb.name s.nextHandle }

/-- `handleTickResetCallback(callback)`: the `timeMs = 0` frame-synced
special case starts a raf loop; otherwise a host interval of
`timeMs / speed` is registered. -/
def handleTickResetCallback (s : TimerState) (cb : InternalCallback) : TimerState :=
  if cb.timeMs = 0 ∧ cb.requireAnimationFrame then
    { s with
      nextHandle := s.nextHandle + 1
      pendingRafs := s.pendingRafs ++ [(s.nextHandle, .rafLoop cb.name)]
      rafs := mapSet s.rafs cb.name s.nextHandle }
  else
    { s with
      nextHandle := s.nextHandle + 1
      pendingIntervals := s.pendingIntervals ++
        [(s.nextHandle, { cbName := cb.name, intervalMs := cb.timeMs / s.speed })]
      intervals := mapSet s.intervals cb.name s.nextHandle }

/-- The `nextExecutionTime` computed at the top of `handleTickCallback`:
the naive target `lastExecutionMs + timeMs`, replaced by the ideal target
`registeredAt + (⌊(elapsed − registeredAt) / timeMs⌋ + 1) × timeMs` when
drift compensation is enabled and the naive target exceeds the ideal one. -/
def nextExecutionTimeOf (cb : InternalCallback) (elapsed : ℤ) : ℚ :=
  let naive : ℚ := cb.lastExecutionMs + cb.timeMs
  if cb.disableTickDriftCompensation = true then naive
  else
    let fullIntervals : ℤ := ⌊((elapsed : ℚ) - cb.registeredAt) / cb.timeMs⌋
    let idealNextExecutionTime : ℚ := cb.registeredAt + (fullIntervals + 1) * cb.timeMs
    if naive - idealNextExecutionTime > 0 then idealNextExecutionTime else naive

/-- `handleTickCallback(callback)`: when the computed next target falls
strictly inside `(elapsed, elapsed + timeMs)`, schedule it as a one-shot
checkpoint tagged "tick" whose payload carries a copy of the callback with
`timeMs` replaced by the target and the original as source; otherwise go
straight to steady-state `tick-reset` mode. -/
def handleTickCallback (s : TimerState) (cb : InternalCallback) (now : ℚ) : TimerState :=
  let elapsed := getElapsedMsRaw s now
  let nextExecutionTime := nextExecutionTimeOf cb elapsed
  if (elapsed : ℚ) < nextExecutionTime ∧ nextExecutionTime < (elapsed : ℚ) + cb.timeMs then
    handleCheckpointCallback s { cb with timeMs := nextExecutionTime } .tick (some cb.name) now
  else
    handleTickResetCallback s cb

/-- The dispatch of one callback in `startCallbacks`' loop. -/
def startOneCallback (now : ℚ) (s : TimerState) (cb : InternalCallback) : TimerState :=
  match cb.type with
  | .checkpoint => handleCheckpointCallback s cb .checkpoint none now
  | .checkpointOnce => handleCheckpointCallback s cb .checkpoint none now
  | .tickReset => handleTickResetCallback s cb
  | .tick => handleTickCallback s cb now

/-- `startCallbacks(callbacks)`: a no-op while paused; otherwise dispatch
each callback to its handler by type. -/
def startCallbacks (s : TimerState) (cbs : List InternalCallback) (now : ℚ) : TimerState :=
  match s.unpausedAt with
  | none => s
  | some _ => cbs.foldl (startOneCallback now) s

/-- One step of `executeUpdateCallbacks`' loop: invoke the callback when it
is flagged `executeOnUpdate`, labelled "checkpoint" for checkpoint-typed
callbacks and "tick" otherwise. -/
def executeUpdateStep (now : ℚ) (s : TimerState) (cb : InternalCallback) : TimerState :=
  if cb.executeOnUpdate then
    createEventAndInvokeCallback s cb
      (some (if cb.type = .checkpoint then .checkpoint else .tick)) none now
  else s

/-- `executeUpdateCallbacks()`: synchronously invoke every registration
flagged `executeOnUpdate`. -/
def executeUpdateCallbacks (s : TimerState) (now : ℚ) : TimerState :=
  s.callbacks.foldl (executeUpdateStep now) s

/-- The body of `pause(suppressUpdateCallbacks)` without the
`checkDisposed` guard; returns whether the timer actually transitioned. -/
def pauseBody (s : TimerState) (suppressUpdateCallbacks : Bool) (now : ℚ) : TimerState × Bool :=
  match s.unpausedAt with
  | none => (s, false)
  | some u =>
    let s := { s with
      pausedAt := now
      elapsedMs := s.elapsedMs + (now - u) * s.speed
      unpausedAt := none }
    let s := pushEvent s { event := .pause, elapsedMs := s.elapsedMs, data := none }
    let s := clearTimeouts s false
    let s := if suppressUpdateCallbacks then s else executeUpdateCallbacks s now
    (s, true)

/-- Public `pause`: `checkDisposed`, then `pauseBody`. -/
def pause (s : TimerState) (suppressUpdateCallbacks : Bool) (now : ℚ) :
    TimerState × Bool × Option TimerError :=
  if s.disposed then (s, false, some (.disposed s.name))
  else
    let (s, transitioned) := pauseBody s suppressUpdateCallbacks now
    (s, transitioned, none)

/-- The body of `unpause()` without the `checkDisposed` guard.  The
source's `suppressUpdateCallbacks` parameter is declared but never read, so
update callbacks always run; this definition faithfully ignores it. -/
def unpauseBody (s : TimerState) (now : ℚ) : TimerState :=
  match s.unpausedAt with
  | some _ => s
  | none =>
    let s := { s with unpausedAt := some now }
    let elapsed := getElapsedMsRaw s now
    let s := pushEvent s { event := .unpause, elapsedMs := (elapsed : ℚ), data := none }
    let s := startCallbacks s s.callbacks now
    executeUpdateCallbacks s now

/-- Public `unpause`: `checkDisposed`, then `unpauseBody`. -/
def unpause (s : TimerState) (now : ℚ) : TimerState × Option TimerError :=
  if s.disposed then (s, some (.disposed s.name)) else (unpauseBody s now, none)

/-- `start()` is a pure alias for `unpause()`. -/
def start (s : TimerState) (now : ℚ) : TimerState × Option TimerError :=
  unpause s now

/-- `dispose()`: cancel everything pending, then flag the instance
(no `checkDisposed`; never throws). -/
def dispose (s : TimerState) : TimerState :=
  { clearTimeouts s false with disposed := true }

/-- A user-supplied entry of `registerCallbacks`: the optional fields keep
their optionality, defaulted inside registration exactly as the source's
`?? false` does. -/
structure CbSpec where
  type : CbType
  timeMs : ℚ
  name : Option String := none
  requireAnimationFrame : Option Bool := none
  executeOnUpdate : Option Bool := none
  logExecutions : Option Bool := none
  disableTickDriftCompensation : Option Bool := none
deriving DecidableEq, Repr

/-- The auto-generated name `` `{type}-{seed}` ``. -/
def autoName (t : CbType) (seed : ℕ) : String :=
  t.str ++ "-" ++ toString seed

/-- The internal-callback object literal built inside `registerCallbacks`:
the user entry with its optional fields defaulted and
`lastExecutionMs = registeredAt = currentElapsed`. -/
def mkInternalCallback (spec : CbSpec) (callbackName : String) (elapsed : ℤ) :
    InternalCallback :=
  { name := callbackName
    type := spec.type
    timeMs := spec.timeMs
    requireAnimationFrame := spec.requireAnimationFrame.getD false
    executeOnUpdate := spec.executeOnUpdate.getD false
    logExecutions := spec.logExecutions.getD false
    disableTickDriftCompensation := spec.disableTickDriftCompensation.getD false
    lastExecutionMs := (elapsed : ℚ)
    registeredAt := (elapsed : ℚ) }

/-- The loop body of `registerCallbacks`: for each entry, lazily initialise
the kind's seed/name-set, resolve the name (auto-generating from the
current seed when omitted), abort with a name-conflict error if the
resolved name is taken for that kind, otherwise append the internal record,
bump the kind's seed and record the name.  An abort keeps the mutations of
the earlier entries, as a JS `throw` does. -/
def regLoop (s : TimerState) (specs : List CbSpec) (now : ℚ)
    (acc : List InternalCallback) :
    TimerState × Option TimerError × List InternalCallback :=
  match specs with
  | [] => (s, none, acc)
  | spec :: rest =>
    let s := if s.callbackIdSeeds.get spec.type = 0 then
        { s with
          callbackIdSeeds := s.callbackIdSeeds.set spec.type 1
          callbackNames := s.callbackNames.set spec.type [] }
      else s
    let callbackIdSeed := s.callbackIdSeeds.get spec.type
    let callbackName := spec.name.getD (autoName spec.type callbackIdSeed)
    if callbackName ∈ s.callbackNames.get spec.type then
      (s, some (.nameConflict spec.type spec.name), acc)
    else
      let internalCallback := mkInternalCallback spec callbackName (getElapsedMsRaw s now)
      let s := { s with
        callbacks := s.callbacks ++ [internalCallback]
        callbackIdSeeds := s.callbackIdSeeds.set spec.type (callbackIdSeed + 1)
        callbackNames := s.callbackNames.set spec.type
          (setAdd (s.callbackNames.get spec.type) callbackName) }
      regLoop s rest now (acc ++ [internalCallback])

/-- Public `registerCallbacks(callbacks)`: `checkDisposed`, the
registration loop, and — only when every entry succeeded — `startCallbacks`
on the newly added entries. -/
def registerCallbacks (s : TimerState) (specs : List CbSpec) (now : ℚ) :
    TimerState × Option TimerError :=
  if s.disposed then (s, some (.disposed s.name))
  else
    match regLoop s specs now [] with
    | (s, some e, _) => (s, some e)
    | (s, none, callbacksToStart) => (startCallbacks s callbacksToStart now, none)

/-- Remove the first registry entry with the given name
(`findIndex` + `splice(index, 1)`). -/
def eraseFirstCallback (cbs : List InternalCallback) (n : String) : List InternalCallback :=
  match cbs with
  | [] => []
  | cb :: rest => if cb.name = n then rest else cb :: eraseFirstCallback rest n

/-- Removal of a single name inside `removeCallbacks`: cancel and delete
any live timeout/interval/raf entry under that name, drop the first
registry entry with that name, and free the name in all four kind
namespaces. -/
def removeOneCallback (s : TimerState) (n : String) : TimerState :=
  let s := match mapGet s.timeouts n with
    | some h =>
      { s with
        pendingTimeouts := s.pendingTimeouts.filter (fun p => p.1 ≠ h)
        timeouts := mapDelete s.timeouts n }
    | none => s
  let s := match mapGet s.intervals n with
    | some h =>
      { s with
        pendingIntervals := s.pendingIntervals.filter (fun p => p.1 ≠ h)
        intervals := mapDelete s.intervals n }
    | none => s
  let s := match mapGet s.rafs n with
    | some h =>
      { s with
        pendingRafs := s.pendingRafs.filter (fun p => p.1 ≠ h)
        rafs := mapDelete s.rafs n }
    | none => s
  let s := { s with callbacks := eraseFirstCallback s.callbacks n }
  { s with callbackNames :=
      ((((s.callbackNames.set .checkpoint (setDelete (s.callbackNames.get .checkpoint) n)).set
          .checkpointOnce (setDelete (s.callbackNames.get .checkpointOnce) n)).set
          .tick (setDelete (s.callbackNames.get .tick) n)).set
          .tickReset (setDelete (s.callbackNames.get .tickReset) n)) }

/-- Public `removeCallbacks(callbackNames)`. -/
def removeCallbacks (s : TimerState) (names : List String) :
    TimerState × Option TimerError :=
  if s.disposed then (s, some (.disposed s.name))
  else (names.foldl removeOneCallback s, none)

/-- Public `removeAllCallbacks()`: remove every callback whose name does
not start with `"!"`. -/
def removeAllCallbacks (s : TimerState) : TimerState × Option TimerError :=
  if s.disposed then (s, some (.disposed s.name))
  else
    let names := (s.callbacks.filter (fun c => ¬ c.name.startsWith "!")).map (fun c => c.name)
    (names.foldl removeOneCallback s, none)

/-- The comparison `a.timeMs − b.timeMs` used by `_addTime`'s stable
`sort`. -/
def cbTimeLE (a b : InternalCallback) : Prop := a.timeMs ≤ b.timeMs

instance : DecidableRel cbTimeLE := fun a b => inferInstanceAs (Decidable (a.timeMs ≤ b.timeMs))

instance : IsTotal InternalCallback cbTimeLE :=
  ⟨fun a b => le_total a.timeMs b.timeMs⟩

instance : IsTrans InternalCallback cbTimeLE :=
  ⟨fun _ _ _ h h' => le_trans h h'⟩

/-- The checkpoint-crossing walk of `_addTime`: over the pre-sorted list,
fire (as a "checkpoint" event) every callback whose target lies in
`(oldElapsed, oldElapsed + ms]`, in list order; the names fired are
returned alongside the state for observation (the same names appear as the
history events added). -/
def checkpointWalk (s : TimerState) (sorted : List InternalCallback)
    (oldElapsed : ℤ) (ms : ℚ) (now : ℚ) : TimerState × List String :=
  match sorted with
  | [] => (s, [])
  | cb :: rest =>
    if (oldElapsed : ℚ) < cb.timeMs ∧ cb.timeMs ≤ (oldElapsed : ℚ) + ms then
      let s := createEventAndInvokeCallback s cb (some .checkpoint) none now
      let (s, fired) := checkpointWalk s rest oldElapsed ms now
      (s, cb.name :: fired)
    else
      checkpointWalk s rest oldElapsed ms now

/-- `_addTime(ms, suppressCallbacks)`: clear one-shot registrations
(intervals are left alone), fold any running segment into the total via a
suppressed pause, add the delta, walk the type-`"checkpoint"` callbacks in
ascending `timeMs` order firing the forward-crossed ones (unless
suppressed), always run the `executeOnUpdate` callbacks, and resume if the
timer had been running.  Callers guarantee the timer is not disposed. -/
def addTimeUnderscore (s : TimerState) (ms : ℚ) (suppressCallbacks : Bool) (now : ℚ) :
    TimerState × List String :=
  let s := clearTimeouts s true
  let paused := pauseBody s true now
  let wasPaused := paused.2
  let s := paused.1
  let oldElapsed := getElapsedMsRaw s now
  let s := { s with elapsedMs := s.elapsedMs + ms }
  let sortedCallbacks :=
    List.insertionSort cbTimeLE (s.callbacks.filter (fun c => c.type = .checkpoint))
  let walked :=
    if suppressCallbacks then (s, [])
    else checkpointWalk s sortedCallbacks oldElapsed ms now
  let s := executeUpdateCallbacks walked.1 now
  let s := if s.unpausedAt = none ∧ wasPaused then unpauseBody s now else s
  (s, walked.2)

/-- Public `addTime(ms, suppressCallbacks)`: `checkDisposed`, log an
`addTime` event, then `_addTime`. -/
def addTime (s : TimerState) (ms : ℚ) (suppressCallbacks : Bool) (now : ℚ) :
    TimerState × List String × Option TimerError :=
  if s.disposed then (s, [], some (.disposed s.name))
  else
    let elapsed := getElapsedMsRaw s now
    let s := pushEvent s
      { event := .addTime, elapsedMs := (elapsed : ℚ), data := some (.addTimeMsg ms) }
    let r := addTimeUnderscore s ms suppressCallbacks now
    (r.1, r.2, none)

/-- Public `setTime(ms, suppressCallbacks)`: `checkDisposed`, log a
`setTime` event, then `_addTime` of the normalised delta
`ms − currentElapsed`. -/
def setTime (s : TimerState) (ms : ℚ) (suppressCallbacks : Bool) (now : ℚ) :
    TimerState × List String × Option TimerError :=
  if s.disposed then (s, [], some (.disposed s.name))
  else
    let elapsed := getElapsedMsRaw s now
    let s := pushEvent s
      { event := .setTime, elapsedMs := (elapsed : ℚ), data := some (.setTimeMsg ms) }
    let r := addTimeUnderscore s (ms - (elapsed : ℚ)) suppressCallbacks now
    (r.1, r.2, none)

/-- `setSpeedMultiplier(speedMultiplier)`.  Note: the source has NO
`checkDisposed` guard here; when the timer is running the inner public
`pause()` throws the disposed error, but on a paused disposed timer the new
speed is stored and a `setSpeed` event appended without any error. -/
def setSpeedMultiplier (s : TimerState) (speedMultiplier : ℚ) (now : ℚ) :
    TimerState × Option TimerError :=
  if speedMultiplier = s.speed then (s, none)
  else
    match s.unpausedAt with
    | some _ =>
      if s.disposed then (s, some (.disposed s.name))
      else
        let s := (pauseBody s false now).1
        let s := { s with speed := speedMultiplier }
        let s := pushEvent s
          { event := .setSpeed, elapsedMs := s.elapsedMs,
            data := some (.speedVal speedMultiplier) }
        (unpauseBody s now, none)
    | none =>
      let s := { s with speed := speedMultiplier }
      let s := pushEvent s
        { event := .setSpeed, elapsedMs := s.elapsedMs,
          data := some (.speedVal speedMultiplier) }
      (s, none)

/-- The value snapshot returned by `getState()`. -/
structure TimerStateSnapshot where
  timerId : ℕ
  elapsedMs : ℤ
  isPaused : Bool
  history : List TimerEvent
deriving DecidableEq, Repr

/-- Public `getState()` (value view; the aliasing behaviour of the
`structuredClone` fallback is modelled separately with an explicit heap). -/
def getState (s : TimerState) (now : ℚ) : Except TimerError TimerStateSnapshot :=
  if s.disposed then .error (.disposed s.name)
  else .ok
    { timerId := s.id
      elapsedMs := getElapsedMsRaw s now
      isPaused := s.unpausedAt.isNone
      history := s.history }

/-- One firing of a pending host interval: the closure registered by
`handleTickResetCallback` runs `createEventAndInvokeCallback(callback,
"tick")` on the (shared) callback record it captured; the repeating
registration itself stays pending. -/
def fireInterval (s : TimerState) (h : ℕ) (now : ℚ) : TimerState :=
  match s.pendingIntervals.find? (fun p => p.1 = h) with
  | none => s
  | some (_, payload) =>
    match s.callbacks.find? (fun cb => cb.name = payload.cbName) with
    | none => s
    | some cb => createEventAndInvokeCallback s cb (some .tick) none now

/-- A `SuperCountdown`: the engine plus the fixed total `completeTime`.
The separate completion-callback set holds only the `once` flags (the user
functions are opaque). -/
structure CountdownState where
  engine : TimerState
  completeTime : ℚ
deriving DecidableEq, Repr

/-- The protected internal completion checkpoint the `SuperCountdown`
constructor registers at `timeMs = completeTime`. -/
def countdownInternalSpec (timeMs : ℚ) : CbSpec :=
  { type := .checkpoint, timeMs := timeMs, name := some "!countdown-complete-internal" }

/-- The `SuperCountdown` constructor: a fresh engine with the internal
completion checkpoint registered (on the fresh paused timer the
registration always succeeds and schedules nothing). -/
def mkCountdown (id : ℕ) (timeMs : ℚ) (nowAtConstruction : ℚ) : CountdownState :=
  { engine := (registerCallbacks (freshTimer id nowAtConstruction 1 ("timer-" ++ toString id))
      [countdownInternalSpec timeMs] nowAtConstruction).1
    completeTime := timeMs }

/-- `getTimeRemaining() = completeTime − super.getElapsedMs()` (the inner
call carries the `checkDisposed` guard). -/
def getTimeRemaining (c : CountdownState) (now : ℚ) : Except TimerError ℚ :=
  match getElapsedMs c.engine now with
  | .error e => .error e
  | .ok elapsed => .ok (c.completeTime - (elapsed : ℚ))

/-- `isDone() = getTimeRemaining() ≤ 0`. -/
def isDone (c : CountdownState) (now : ℚ) : Except TimerError Bool :=
  match getTimeRemaining c now with
  | .error e => .error e
  | .ok r => .ok (decide (r ≤ 0))

/-- `SuperCountdown.unpause()`: `if (!this.isDone()) super.unpause()`.
When `isDone()` holds nothing at all happens; the `isDone` call itself can
throw the disposed error. -/
def countdownUnpause (c : CountdownState) (now : ℚ) : CountdownState × Option TimerError :=
  match isDone c now with
  | .error e => (c, some e)
  | .ok true => (c, none)
  | .ok false =>
    let r := unpause c.engine now
    ({ c with engine := r.1 }, r.2)

/-- `SuperCountdown.addTime(ms)` delegates to the engine's
`addTime(-ms)`. -/
def countdownAddTime (c : CountdownState) (ms : ℚ) (suppressCallbacks : Bool) (now : ℚ) :
    CountdownState × List String × Option TimerError :=
  let r := addTime c.engine (-ms) suppressCallbacks now
  ({ c with engine := r.1 }, r.2.1, r.2.2)

/-- `SuperCountdown.setTimeRemaining(ms)` delegates to the engine's
`setTime(completeTime − ms)`. -/
def setTimeRemaining (c : CountdownState) (ms : ℚ) (suppressCallbacks : Bool) (now : ℚ) :
    CountdownState × List String × Option TimerError :=
  let r := setTime c.engine (c.completeTime - ms) suppressCallbacks now
  ({ c with engine := r.1 }, r.2.1, r.2.2)

/-! ### Heap model for `getState`'s history snapshot

`getState` computes `globalThis.structuredClone?.(this.history) ??
this.history`.  To reason about aliasing, the history object is given an
explicit address into a small heap of event lists: cloning allocates a
fresh address holding a copy, the fallback hands out the internal address
itself. -/

/-- A heap of history objects, addressed by position. -/
abbrev Heap := List (List TimerEvent)

/-- Dereference an address (an out-of-range address reads as empty). -/
def heapGet (h : Heap) (r : ℕ) : List TimerEvent :=
  List.getD h r []

/-- Overwrite the object at an address. -/
def heapSet (h : Heap) (r : ℕ) (v : List TimerEvent) : Heap :=
  List.set h r v

/-- The reference `getState` returns for its `history` field, together
with the heap after the call: with `structuredClone` available, a fresh
address holding a deep copy; without it, the internal address itself. -/
def getStateHistoryRef (hasStructuredClone : Bool) (heap : Heap) (internalRef : ℕ) :
    Heap × ℕ :=
  if hasStructuredClone then (heap ++ [heapGet heap internalRef], heap.length)
  else (heap, internalRef)

/-- A caller mutating the snapshot it received: append an event to the
history object behind the returned reference. -/
def appendEventAt (heap : Heap) (r : ℕ) (e : TimerEvent) : Heap :=
  heapSet heap r (heapGet heap r ++ [e])

/-! ### Concrete states used by witnesses and counterexamples -/

/-- A `tick` callback with interval 1000, registered at elapsed 0, whose
latest execution was at elapsed 1000 (the steady-state firing). -/
def exTickCb (dis : Bool) : InternalCallback :=
  { name := "t", type := .tick, timeMs := 1000, requireAnimationFrame := false,
    executeOnUpdate := false, logExecutions := false,
    disableTickDriftCompensation := dis, lastExecutionMs := 1000, registeredAt := 0 }

/-- The drift scenario of the spec: the tick above on a timer paused at
elapsed 1400 (name bookkeeping as left by its registration). -/
def exTickState (dis : Bool) : TimerState :=
  { freshTimer 1 0 1 "timer-1" with
      callbacks := [exTickCb dis], elapsedMs := 1400,
      callbackIdSeeds := (KindMap.const 0).set .tick 2,
      callbackNames := (KindMap.const []).set .tick ["t"] }

/-- A frame-synced repeating registration (`tick-reset`,
`requireAnimationFrame`), interval 1000ms. -/
def exFrameSyncSpec : CbSpec :=
  { type := .tickReset, timeMs := 1000, name := some "t",
    requireAnimationFrame := some true }

/-- Reachable state for the cross-map claim: register the frame-synced
repeating callback on a fresh timer, unpause, and let the host interval
fire once (at host time 1000). -/
def exCrossMapState : TimerState :=
  fireInterval (unpause (registerCallbacks (freshTimer 1 0 1 "timer-1")
    [exFrameSyncSpec] 0).1 0).1 1 1000

/-- A disposed (previously paused) timer. -/
def exDisposedTimer : TimerState :=
  dispose (freshTimer 1 0 1 "timer-1")

/-- A plain checkpoint callback at the given target. -/
def exCheckpointCb (n : String) (t : ℚ) : InternalCallback :=
  { name := n, type := .checkpoint, timeMs := t, requireAnimationFrame := false,
    executeOnUpdate := false, logExecutions := false,
    disableTickDriftCompensation := false, lastExecutionMs := 0, registeredAt := 0 }

/-- Paused timer holding checkpoints at targets 5, 3 and 8 (registered in
that order, so ascending firing is not registration order). -/
def exWalkState : TimerState :=
  { freshTimer 1 0 1 "timer-1" with
      callbacks := [exCheckpointCb "a" 5, exCheckpointCb "b" 3, exCheckpointCb "c" 8] }

/-- A countdown with `totalMs = 10000` whose elapsed has reached 10000
(completed and paused). -/
def exDoneCountdown : CountdownState :=
  { engine := { (mkCountdown 1 10000 0).engine with elapsedMs := 10000 },
    completeTime := 10000 }

/-- A sample history event used by the aliasing counterexample. -/
def exEvent : TimerEvent :=
  { event := .pause, elapsedMs := 42, data := none }

/-- A timer whose first checkpoint registration carried the explicit name
`"checkpoint-2"` — the name the kind's sequence counter will reach at the
second registration. -/
def exSeedTimer : TimerState :=
  (registerCallbacks (freshTimer 1 0 1 "timer-1")
    [{ type := .checkpoint, timeMs := 100, name := some "checkpoint-2" }] 0).1

/-!
## Helper lemmas

Preservation lemmas describing which components of the state each internal
operation leaves untouched, plus characterisations of the checkpoint walk
and the registration loop.
-/

/-- The part of the state that host-registration bookkeeping never
touches. -/
def coreView (s : TimerState) :
    ℚ × Option ℚ × ℚ × Bool × KindMap ℕ × KindMap (List String) × ℕ × String :=
  (s.elapsedMs, s.unpausedAt, s.speed, s.disposed, s.callbackIdSeeds,
   s.callbackNames, s.id, s.name)

theorem coreView_foldl {α : Type} (f : TimerState → α → TimerState)
    (hf : ∀ s a, coreView (f s a) = coreView s) :
    ∀ (l : List α) (s : TimerState), coreView (l.foldl f s) = coreView s := by
  intro l
  induction l with
  | nil => intro s; rfl
  | cons a rest ih =>
    intro s
    rw [List.foldl_cons, ih, hf]

theorem coreView_clearTimeouts (s : TimerState) (b : Bool) :
    coreView (clearTimeouts s b) = coreView s := by
  unfold clearTimeouts coreView
  cases b
  · simp only [Bool.false_eq_true, if_false]
    split <;> rfl
  · rfl

theorem coreView_pushEvent (s : TimerState) (e : TimerEvent) :
    coreView (pushEvent s e) = coreView s := rfl

theorem coreView_createEvent (s : TimerState) (cb : InternalCallback)
    (et : Option EventType) (src : Option String) (now : ℚ) :
    coreView (createEventAndInvokeCallback s cb et src now) = coreView s := by
  unfold createEventAndInvokeCallback coreView pushEvent setLastExecution
  cases et <;> cases h : cb.requireAnimationFrame <;> simp [h]

theorem coreView_handleCheckpoint (s : TimerState) (cb : InternalCallback)
    (et : EventType) (src : Option String) (now : ℚ) :
    coreView (handleCheckpointCallback s cb et src now) = coreView s := by
  simp only [handleCheckpointCallback]
  split <;> rfl

theorem coreView_handleTickReset (s : TimerState) (cb : InternalCallback) :
    coreView (handleTickResetCallback s cb) = coreView s := by
  simp only [handleTickResetCallback]
  split <;> rfl

theorem coreView_handleTick (s : TimerState) (cb : InternalCallback) (now : ℚ) :
    coreView (handleTickCallback s cb now) = coreView s := by
  simp only [handleTickCallback]
  split
  · exact coreView_handleCheckpoint ..
  · exact coreView_handleTickReset ..

theorem coreView_startOne (now : ℚ) (s : TimerState) (cb : InternalCallback) :
    coreView (startOneCallback now s cb) = coreView s := by
  unfold startOneCallback
  cases cb.type
  · exact coreView_handleCheckpoint ..
  · exact coreView_handleCheckpoint ..
  · exact coreView_handleTick ..
  · exact coreView_handleTickReset ..

theorem coreView_startCallbacks (s : TimerState) (cbs : List InternalCallback) (now : ℚ) :
    coreView (startCallbacks s cbs now) = coreView s := by
  unfold startCallbacks
  cases s.unpausedAt
  · rfl
  · exact coreView_foldl _ (coreView_startOne now) cbs s

theorem coreView_executeUpdateStep (now : ℚ) (s : TimerState) (cb : InternalCallback) :
    coreView (executeUpdateStep now s cb) = coreView s := by
  unfold executeUpdateStep
  split
  · exact coreView_createEvent ..
  · rfl

theorem coreView_executeUpdate (s : TimerState) (now : ℚ) :
    coreView (executeUpdateCallbacks s now) = coreView s :=
  coreView_foldl _ (coreView_executeUpdateStep now) s.callbacks s

theorem coreView_checkpointWalk (sorted : List InternalCallback) (oldE : ℤ)
    (ms now : ℚ) : ∀ s : TimerState,
    coreView (checkpointWalk s sorted oldE ms now).1 = coreView s := by
  induction sorted with
  | nil => intro s; rfl
  | cons cb rest ih =>
    intro s
    unfold checkpointWalk
    split
    · simp only
      rw [ih, coreView_createEvent]
    · exact ih s

/-- A projection preserved by every step of a fold is preserved by the
fold. -/
theorem foldl_pres {α β : Type} (g : TimerState → β) (f : TimerState → α → TimerState)
    (hf : ∀ s a, g (f s a) = g s) : ∀ (l : List α) (s : TimerState), g (l.foldl f s) = g s := by
  intro l
  induction l with
  | nil => intro s; rfl
  | cons a rest ih => intro s; rw [List.foldl_cons, ih, hf]

theorem getElapsedMsRaw_congr {s' s : TimerState} (now : ℚ)
    (h : coreView s' = coreView s) : getElapsedMsRaw s' now = getElapsedMsRaw s now := by
  unfold coreView at h
  simp only [Prod.mk.injEq] at h
  unfold getElapsedMsRaw
  rw [h.1, h.2.1, h.2.2.1]

theorem callbacks_clearTimeouts (s : TimerState) (b : Bool) :
    (clearTimeouts s b).callbacks = s.callbacks := by
  unfold clearTimeouts
  cases b
  · simp only [Bool.false_eq_true, if_false]
    split <;> rfl
  · rfl

theorem callbacks_handleCheckpoint (s : TimerState) (cb : InternalCallback)
    (et : EventType) (src : Option String) (now : ℚ) :
    (handleCheckpointCallback s cb et src now).callbacks = s.callbacks := by
  simp only [handleCheckpointCallback]
  split <;> rfl

theorem callbacks_handleTickReset (s : TimerState) (cb : InternalCallback) :
    (handleTickResetCallback s cb).callbacks = s.callbacks := by
  simp only [handleTickResetCallback]
  split <;> rfl

theorem callbacks_handleTick (s : TimerState) (cb : InternalCallback) (now : ℚ) :
    (handleTickCallback s cb now).callbacks = s.callbacks := by
  simp only [handleTickCallback]
  split
  · exact callbacks_handleCheckpoint ..
  · exact callbacks_handleTickReset ..

theorem callbacks_startOne (now : ℚ) (s : TimerState) (cb : InternalCallback) :
    (startOneCallback now s cb).callbacks = s.callbacks := by
  unfold startOneCallback
  cases cb.type
  · exact callbacks_handleCheckpoint ..
  · exact callbacks_handleCheckpoint ..
  · exact callbacks_handleTick ..
  · exact callbacks_handleTickReset ..

theorem callbacks_startCallbacks (s : TimerState) (cbs : List InternalCallback) (now : ℚ) :
    (startCallbacks s cbs now).callbacks = s.callbacks := by
  unfold startCallbacks
  cases s.unpausedAt
  · rfl
  · exact foldl_pres (fun s => s.callbacks) _ (callbacks_startOne now) cbs s

theorem pauseBody_of_paused (s : TimerState) (b : Bool) (now : ℚ)
    (h : s.unpausedAt = none) : pauseBody s b now = (s, false) := by
  unfold pauseBody
  rw [h]

theorem unpausedAt_clearTimeouts (s : TimerState) (b : Bool) :
    (clearTimeouts s b).unpausedAt = s.unpausedAt := by
  unfold clearTimeouts
  cases b
  · simp only [Bool.false_eq_true, if_false]
    split <;> rfl
  · rfl

theorem elapsedMs_clearTimeouts (s : TimerState) (b : Bool) :
    (clearTimeouts s b).elapsedMs = s.elapsedMs := by
  unfold clearTimeouts
  cases b
  · simp only [Bool.false_eq_true, if_false]
    split <;> rfl
  · rfl

theorem speed_clearTimeouts (s : TimerState) (b : Bool) :
    (clearTimeouts s b).speed = s.speed := by
  unfold clearTimeouts
  cases b
  · simp only [Bool.false_eq_true, if_false]
    split <;> rfl
  · rfl

theorem disposed_clearTimeouts (s : TimerState) (b : Bool) :
    (clearTimeouts s b).disposed = s.disposed := by
  unfold clearTimeouts
  cases b
  · simp only [Bool.false_eq_true, if_false]
    split <;> rfl
  · rfl

theorem getElapsedMsRaw_clearTimeouts (s : TimerState) (b : Bool) (now : ℚ) :
    getElapsedMsRaw (clearTimeouts s b) now = getElapsedMsRaw s now := by
  unfold getElapsedMsRaw
  rw [unpausedAt_clearTimeouts, elapsedMs_clearTimeouts, speed_clearTimeouts]

theorem pauseBodyTrue_callbacks (s : TimerState) (now : ℚ) :
    (pauseBody s true now).1.callbacks = s.callbacks := by
  unfold pauseBody
  cases s.unpausedAt
  · rfl
  · simp only [if_true]
    rw [callbacks_clearTimeouts]
    rfl

theorem pauseBodyTrue_unpausedAt (s : TimerState) (now : ℚ) :
    (pauseBody s true now).1.unpausedAt = none := by
  unfold pauseBody
  cases h : s.unpausedAt
  · exact h
  · simp only [if_true]
    rw [unpausedAt_clearTimeouts]
    rfl

theorem pauseBodyTrue_elapsedRaw (s : TimerState) (now : ℚ) :
    getElapsedMsRaw (pauseBody s true now).1 now = getElapsedMsRaw s now := by
  unfold pauseBody
  cases h : s.unpausedAt with
  | none => rfl
  | some u =>
    simp only [if_true]
    rw [getElapsedMsRaw_clearTimeouts]
    unfold getElapsedMsRaw pushEvent
    rw [h]

theorem pauseBodyTrue_disposed (s : TimerState) (now : ℚ) :
    (pauseBody s true now).1.disposed = s.disposed := by
  unfold pauseBody
  cases s.unpausedAt
  · rfl
  · simp only [if_true]
    rw [disposed_clearTimeouts]
    rfl

theorem elapsedMs_of_coreView {s' s : TimerState} (h : coreView s' = coreView s) :
    s'.elapsedMs = s.elapsedMs := by
  unfold coreView at h
  simp only [Prod.mk.injEq] at h
  exact h.1

theorem unpausedAt_of_coreView {s' s : TimerState} (h : coreView s' = coreView s) :
    s'.unpausedAt = s.unpausedAt := by
  unfold coreView at h
  simp only [Prod.mk.injEq] at h
  exact h.2.1

theorem disposed_of_coreView {s' s : TimerState} (h : coreView s' = coreView s) :
    s'.disposed = s.disposed := by
  unfold coreView at h
  simp only [Prod.mk.injEq] at h
  exact h.2.2.2.1

/-- The names fired by the checkpoint walk are exactly the names of the
walked callbacks whose target lies in `(oldElapsed, oldElapsed + ms]`, in
walk order (the walk's state threading does not influence the test). -/
theorem checkpointWalk_fired (oldE : ℤ) (ms now : ℚ) :
    ∀ (sorted : List InternalCallback) (s : TimerState),
    (checkpointWalk s sorted oldE ms now).2 =
      (sorted.filter (fun cb =>
        (oldE : ℚ) < cb.timeMs ∧ cb.timeMs ≤ (oldE : ℚ) + ms)).map (fun cb => cb.name) := by
  intro sorted
  induction sorted with
  | nil => intro s; rfl
  | cons cb rest ih =>
    intro s
    by_cases h : (oldE : ℚ) < cb.timeMs ∧ cb.timeMs ≤ (oldE : ℚ) + ms
    · simp [checkpointWalk, h, ih]
    · simp [checkpointWalk, h, ih]

/-- The fired-name list of `_addTime(ms, false)`: the registry's
type-`"checkpoint"` callbacks, stably sorted by target, filtered to the
crossed interval, projected to names. -/
theorem addTimeUnderscore_fired (s : TimerState) (ms now : ℚ) :
    (addTimeUnderscore s ms false now).2 =
      ((List.insertionSort cbTimeLE
          (s.callbacks.filter (fun c => c.type = CbType.checkpoint))).filter
        (fun cb => ((getElapsedMsRaw s now : ℚ) < cb.timeMs ∧
          cb.timeMs ≤ (getElapsedMsRaw s now : ℚ) + ms))).map (fun cb => cb.name) := by
  show (checkpointWalk _ _ _ _ _).2 = _
  rw [checkpointWalk_fired]
  have hcb : ({ (pauseBody (clearTimeouts s true) true now).1 with
      elapsedMs := (pauseBody (clearTimeouts s true) true now).1.elapsedMs + ms }).callbacks
      = s.callbacks := by
    show (pauseBody (clearTimeouts s true) true now).1.callbacks = s.callbacks
    rw [pauseBodyTrue_callbacks, callbacks_clearTimeouts]
  have hold : getElapsedMsRaw (pauseBody (clearTimeouts s true) true now).1 now
      = getElapsedMsRaw s now := by
    rw [pauseBodyTrue_elapsedRaw, getElapsedMsRaw_clearTimeouts]
  rw [hcb, hold]

/-- `Map.set` only introduces entries under the written key. -/
theorem mem_mapSet (m : List (String × ℕ)) (k : String) (v : ℕ) :
    ∀ p, p ∈ mapSet m k v → p ∈ m ∨ p.1 = k := by
  induction m with
  | nil =>
    intro p hp
    simp only [mapSet, List.mem_singleton] at hp
    right
    rw [hp]
  | cons q rest ih =>
    intro p hp
    unfold mapSet at hp
    by_cases hk : q.1 = k
    · simp only [hk, if_true, List.mem_cons] at hp
      rcases hp with h | h
      · right; rw [h]
      · left; exact List.mem_cons_of_mem q h
    · simp only [hk, if_false, List.mem_cons] at hp
      rcases hp with h | h
      · left; rw [h]; exact List.mem_cons_self q rest
      · rcases ih p h with h' | h'
        · left; exact List.mem_cons_of_mem q h'
        · right; exact h'

/-- Deleting a key really removes every binding of it. -/
theorem mapGet_mapDelete (m : List (String × ℕ)) (k : String) :
    mapGet (mapDelete m k) k = none := by
  induction m with
  | nil => rfl
  | cons q rest ih =>
    unfold mapDelete at ih ⊢
    by_cases hk : q.1 = k
    · simpa [List.filter_cons, hk] using ih
    · simpa [List.filter_cons, hk, mapGet, Ne.symm hk] using ih

/-- Absence of a key survives deletion of any key. -/
theorem mapGet_mapDelete_of_none (m : List (String × ℕ)) (k n : String)
    (h : mapGet m n = none) : mapGet (mapDelete m k) n = none := by
  induction m with
  | nil => rfl
  | cons q rest ih =>
    unfold mapGet at h
    by_cases hn : q.1 = n
    · simp [hn] at h
    · simp only [hn, if_false] at h
      unfold mapDelete List.filter
      split
      · unfold mapGet
        simp only [hn, if_false]
        exact ih h
      · exact ih h

/-- The adjustment at the heart of `setTimeRemaining`: rounding after
shifting by `target − round current` lands exactly on the integer
target. -/
theorem round_shift_to_int (e : ℚ) (k : ℤ) :
    round (e + ((k : ℚ) - (round e : ℚ))) = k := by
  have h : e + ((k : ℚ) - (round e : ℚ)) = e - (round e : ℚ) + (k : ℚ) := by ring
  rw [h, round_add_int, round_sub_int]
  omega

theorem addTime_fired (s : TimerState) (ms now : ℚ) (hd : s.disposed = false) :
    (addTime s ms false now).2.1 =
      ((List.insertionSort cbTimeLE
          (s.callbacks.filter (fun c => c.type = CbType.checkpoint))).filter
        (fun cb => ((getElapsedMsRaw s now : ℚ) < cb.timeMs ∧
          cb.timeMs ≤ (getElapsedMsRaw s now : ℚ) + ms))).map (fun cb => cb.name) := by
  unfold addTime
  rw [hd]
  simp only [Bool.false_eq_true, if_false]
  show (addTimeUnderscore (pushEvent s _) ms false now).2 = _
  rw [addTimeUnderscore_fired]
  rfl

theorem setTime_fired (s : TimerState) (t now : ℚ) (hd : s.disposed = false) :
    (setTime s t false now).2.1 =
      (addTime s (t - (getElapsedMsRaw s now : ℚ)) false now).2.1 := by
  unfold setTime
  rw [hd]
  simp only [Bool.false_eq_true, if_false]
  show (addTimeUnderscore (pushEvent s _) _ false now).2 = _
  rw [addTimeUnderscore_fired, addTime_fired s _ now hd]
  rfl

theorem seeds_of_coreView {s' s : TimerState} (h : coreView s' = coreView s) :
    s'.callbackIdSeeds = s.callbackIdSeeds := by
  unfold coreView at h
  simp only [Prod.mk.injEq] at h
  exact h.2.2.2.2.1

theorem names_of_coreView {s' s : TimerState} (h : coreView s' = coreView s) :
    s'.callbackNames = s.callbackNames := by
  unfold coreView at h
  simp only [Prod.mk.injEq] at h
  exact h.2.2.2.2.2.1

theorem KindMap.get_set_self {α : Type} (m : KindMap α) (t : CbType) (v : α) :
    (m.set t v).get t = v := by
  cases t <;> rfl

theorem mem_setAdd_self (l : List String) (x : String) : x ∈ setAdd l x := by
  unfold setAdd
  by_cases h : x ∈ l <;> simp [h]

theorem timeouts_createEvent (s : TimerState) (cb : InternalCallback)
    (et : Option EventType) (src : Option String) (now : ℚ) :
    (createEventAndInvokeCallback s cb et src now).timeouts = s.timeouts := by
  unfold createEventAndInvokeCallback pushEvent setLastExecution
  cases et <;> cases h : cb.requireAnimationFrame <;> simp [h]

theorem intervals_createEvent (s : TimerState) (cb : InternalCallback)
    (et : Option EventType) (src : Option String) (now : ℚ) :
    (createEventAndInvokeCallback s cb et src now).intervals = s.intervals := by
  unfold createEventAndInvokeCallback pushEvent setLastExecution
  cases et <;> cases h : cb.requireAnimationFrame <;> simp [h]

theorem timeouts_executeUpdateStep (now : ℚ) (s : TimerState) (cb : InternalCallback) :
    (executeUpdateStep now s cb).timeouts = s.timeouts := by
  unfold executeUpdateStep
  split
  · exact timeouts_createEvent ..
  · rfl

theorem intervals_executeUpdateStep (now : ℚ) (s : TimerState) (cb : InternalCallback) :
    (executeUpdateStep now s cb).intervals = s.intervals := by
  unfold executeUpdateStep
  split
  · exact intervals_createEvent ..
  · rfl

theorem clearTimeouts_false_timeouts (s : TimerState) :
    (clearTimeouts s false).timeouts = [] := by
  unfold clearTimeouts
  simp only [Bool.false_eq_true, if_false]
  split <;> rfl

theorem clearTimeouts_false_intervals (s : TimerState) :
    (clearTimeouts s false).intervals = [] := by
  unfold clearTimeouts
  simp only [Bool.false_eq_true, if_false]
  split <;> rfl

theorem clearTimeouts_false_rafs (s : TimerState) :
    (clearTimeouts s false).rafs = [] := by
  unfold clearTimeouts
  simp only [Bool.false_eq_true, if_false]

theorem rafs_executeUpdateStep_origin (now : ℚ) (s : TimerState) (cb : InternalCallback)
    (p : String × ℕ) (hp : p ∈ (executeUpdateStep now s cb).rafs) :
    p ∈ s.rafs ∨ (cb.executeOnUpdate = true ∧ cb.requireAnimationFrame = true ∧ p.1 = cb.name) := by
  unfold executeUpdateStep at hp
  split at hp
  case isTrue hexec =>
    unfold createEventAndInvokeCallback pushEvent setLastExecution at hp
    by_cases hr : cb.requireAnimationFrame = true
    · simp only [hr, if_true] at hp
      rcases mem_mapSet _ _ _ p hp with h | h
      · exact Or.inl h
      · exact Or.inr ⟨hexec, hr, h⟩
    · simp only [hr, Bool.false_eq_true, if_false] at hp
      exact Or.inl hp
  case isFalse => exact Or.inl hp

/-- A predicate preserved by every step of a fold is preserved by the
fold. -/
theorem foldl_keeps {α : Type} (P : TimerState → Prop) (f : TimerState → α → TimerState)
    (hf : ∀ s a, P s → P (f s a)) : ∀ (l : List α) (s : TimerState), P s → P (l.foldl f s) := by
  intro l
  induction l with
  | nil => intro s hs; exact hs
  | cons a rest ih => intro s hs; rw [List.foldl_cons]; exact ih _ (hf s a hs)

/-- After `removeCallbacks` processes a name, none of the three maps binds
it. -/
theorem removeOne_clears_self (s : TimerState) (n : String) :
    mapGet (removeOneCallback s n).timeouts n = none ∧
    mapGet (removeOneCallback s n).intervals n = none ∧
    mapGet (removeOneCallback s n).rafs n = none := by
  unfold removeOneCallback
  cases h1 : mapGet s.timeouts n <;>
    simp only [h1] <;>
    (cases h2 : mapGet s.intervals n <;>
      simp only [h2] <;>
      (cases h3 : mapGet s.rafs n <;>
        simp only [h3] <;>
        exact ⟨by simp [h1, mapGet_mapDelete], by simp [h2, mapGet_mapDelete],
               by simp [h3, mapGet_mapDelete]⟩))

/-- `removeCallbacks` never adds a map binding: absence of a name in all
three maps is stable under removing any other name. -/
theorem removeOne_keeps_absent (s : TimerState) (m n : String)
    (h : mapGet s.timeouts n = none ∧ mapGet s.intervals n = none ∧
      mapGet s.rafs n = none) :
    mapGet (removeOneCallback s m).timeouts n = none ∧
    mapGet (removeOneCallback s m).intervals n = none ∧
    mapGet (removeOneCallback s m).rafs n = none := by
  unfold removeOneCallback
  cases h1 : mapGet s.timeouts m <;>
    simp only [h1] <;>
    (cases h2 : mapGet s.intervals m <;>
      simp only [h2] <;>
      (cases h3 : mapGet s.rafs m <;>
        simp only [h3] <;>
        exact ⟨by simp [h.1, mapGet_mapDelete_of_none],
               by simp [h.2.1, mapGet_mapDelete_of_none],
               by simp [h.2.2, mapGet_mapDelete_of_none]⟩))

theorem rafs_executeUpdate_origin (now : ℚ) :
    ∀ (l : List InternalCallback) (s : TimerState) (p : String × ℕ),
    p ∈ (l.foldl (executeUpdateStep now) s).rafs →
    p ∈ s.rafs ∨ ∃ cb, cb ∈ l ∧ cb.executeOnUpdate = true ∧
      cb.requireAnimationFrame = true ∧ p.1 = cb.name := by
  intro l
  induction l with
  | nil => intro s p hp; exact Or.inl hp
  | cons cb rest ih =>
    intro s p hp
    rw [List.foldl_cons] at hp
    rcases ih (executeUpdateStep now s cb) p hp with h | h
    · rcases rafs_executeUpdateStep_origin now s cb p h with h' | h'
      · exact Or.inl h'
      · exact Or.inr ⟨cb, List.mem_cons_self cb rest, h'⟩
    · rcases h with ⟨cb', hm, h'⟩
      exact Or.inr ⟨cb', List.mem_cons_of_mem cb hm, h'⟩

/-- After the removal fold has processed a name appearing in the list, the
three maps no longer bind it. -/
theorem removeFold_clears :
    ∀ (names : List String) (s : TimerState) (n : String), n ∈ names →
    mapGet (names.foldl removeOneCallback s).timeouts n = none ∧
    mapGet (names.foldl removeOneCallback s).intervals n = none ∧
    mapGet (names.foldl removeOneCallback s).rafs n = none := by
  intro names
  induction names with
  | nil => intro s n hn; exact absurd hn (List.not_mem_nil n)
  | cons m rest ih =>
    intro s n hn
    rw [List.foldl_cons]
    by_cases hnm : n = m
    · subst hnm
      exact foldl_keeps
        (fun st => mapGet st.timeouts n = none ∧ mapGet st.intervals n = none ∧
          mapGet st.rafs n = none)
        removeOneCallback (fun st a h => removeOne_keeps_absent st a n h)
        rest _ (removeOne_clears_self s n)
    · exact ih (removeOneCallback s m) n ((List.mem_cons.mp hn).resolve_left hnm)

/-- On a paused timer, `_addTime(d, false)` adds exactly `d` to the raw
accumulated total, stays paused, and keeps the disposed flag. -/
theorem addTimeUnderscore_paused_core (s : TimerState) (d now : ℚ)
    (hp : s.unpausedAt = none) :
    (addTimeUnderscore s d false now).1.elapsedMs = s.elapsedMs + d ∧
    (addTimeUnderscore s d false now).1.unpausedAt = none ∧
    (addTimeUnderscore s d false now).1.disposed = s.disposed := by
  unfold addTimeUnderscore
  have h2 : (clearTimeouts s true).unpausedAt = none := by
    rw [unpausedAt_clearTimeouts]
    exact hp
  dsimp only []
  rw [pauseBody_of_paused _ _ _ h2]
  dsimp only []
  simp only [Bool.false_eq_true, if_false, and_false]
  have hw := coreView_checkpointWalk
    (List.insertionSort cbTimeLE
      ((clearTimeouts s true).callbacks.filter (fun c => c.type = CbType.checkpoint)))
    (getElapsedMsRaw (clearTimeouts s true) now) d now
    { clearTimeouts s true with elapsedMs := (clearTimeouts s true).elapsedMs + d }
  have he := coreView_executeUpdate
    ((checkpointWalk { clearTimeouts s true with
        elapsedMs := (clearTimeouts s true).elapsedMs + d }
      (List.insertionSort cbTimeLE
        ((clearTimeouts s true).callbacks.filter (fun c => c.type = CbType.checkpoint)))
      (getElapsedMsRaw (clearTimeouts s true) now) d now).1) now
  refine ⟨?_, ?_, ?_⟩
  · rw [elapsedMs_of_coreView he, elapsedMs_of_coreView hw]
    show (clearTimeouts s true).elapsedMs + d = s.elapsedMs + d
    rw [elapsedMs_clearTimeouts]
  · rw [unpausedAt_of_coreView he, unpausedAt_of_coreView hw]
    exact h2
  · rw [disposed_of_coreView he, disposed_of_coreView hw]
    show (clearTimeouts s true).disposed = s.disposed
    rw [disposed_clearTimeouts]

/-- On a paused non-disposed timer, `setTime(t, false)` shifts the raw
accumulated total by `t − round(elapsedMs)`, stays paused and stays
non-disposed. -/
theorem setTime_paused_core (s : TimerState) (t now : ℚ)
    (hd : s.disposed = false) (hp : s.unpausedAt = none) :
    (setTime s t false now).1.elapsedMs = s.elapsedMs + (t - (round s.elapsedMs : ℚ)) ∧
    (setTime s t false now).1.unpausedAt = none ∧
    (setTime s t false now).1.disposed = false := by
  unfold setTime
  rw [hd]
  simp only [Bool.false_eq_true, if_false]
  have hraw : getElapsedMsRaw s now = round s.elapsedMs := by
    unfold getElapsedMsRaw
    rw [hp]
  have hp' : (pushEvent s
      { event := .setTime, elapsedMs := (getElapsedMsRaw s now : ℚ),
        data := some (.setTimeMsg t) }).unpausedAt = none := hp
  have h := addTimeUnderscore_paused_core
    (pushEvent s
      { event := .setTime, elapsedMs := (getElapsedMsRaw s now : ℚ),
        data := some (.setTimeMsg t) })
    (t - (getElapsedMsRaw s now : ℚ)) now hp'
  refine ⟨?_, h.2.1, ?_⟩
  · rw [h.1]
    show s.elapsedMs + (t - (getElapsedMsRaw s now : ℚ)) = _
    rw [hraw]
  · rw [h.2.2]
    exact hd

/-- A single-entry `registerCallbacks` whose resolved name is already
taken for its kind aborts with the name-conflict error and returns the
state unchanged. -/
theorem register_single_conflict (s : TimerState) (spec : CbSpec) (now : ℚ)
    (hd : s.disposed = false)
    (hseed : s.callbackIdSeeds.get spec.type ≠ 0)
    (hconf : spec.name.getD (autoName spec.type (s.callbackIdSeeds.get spec.type))
      ∈ s.callbackNames.get spec.type) :
    registerCallbacks s [spec] now = (s, some (.nameConflict spec.type spec.name)) := by
  unfold registerCallbacks
  rw [hd]
  simp only [Bool.false_eq_true, if_false]
  unfold regLoop
  rw [if_neg hseed]
  simp only [if_pos hconf]

/-- A single-entry `registerCallbacks` without a name conflict succeeds,
appending the internal record, bumping the kind's sequence seed and
recording the resolved name. -/
theorem register_single_success (s : TimerState) (spec : CbSpec) (now : ℚ)
    (hd : s.disposed = false)
    (hnoconf : spec.name.getD (autoName spec.type
        (if s.callbackIdSeeds.get spec.type = 0 then 1 else s.callbackIdSeeds.get spec.type)) ∉
      (if s.callbackIdSeeds.get spec.type = 0 then [] else s.callbackNames.get spec.type)) :
    ∃ cb : InternalCallback,
      cb.name = spec.name.getD (autoName spec.type
        (if s.callbackIdSeeds.get spec.type = 0 then 1
          else s.callbackIdSeeds.get spec.type)) ∧
      cb.type = spec.type ∧
      (registerCallbacks s [spec] now).2 = none ∧
      (registerCallbacks s [spec] now).1.callbacks = s.callbacks ++ [cb] ∧
      (registerCallbacks s [spec] now).1.callbackIdSeeds.get spec.type =
        (if s.callbackIdSeeds.get spec.type = 0 then 1
          else s.callbackIdSeeds.get spec.type) + 1 ∧
      (registerCallbacks s [spec] now).1.callbackNames.get spec.type =
        setAdd (if s.callbackIdSeeds.get spec.type = 0 then []
          else s.callbackNames.get spec.type) cb.name ∧
      (registerCallbacks s [spec] now).1.disposed = false := by
  unfold registerCallbacks
  rw [hd]
  simp only [Bool.false_eq_true, if_false]
  unfold regLoop
  by_cases h0 : s.callbackIdSeeds.get spec.type = 0
  · simp only [h0, if_true] at hnoconf ⊢
    simp only [KindMap.get_set_self]
    rw [if_neg (List.not_mem_nil _)]
    simp only [regLoop]
    refine ⟨mkInternalCallback spec (spec.name.getD (autoName spec.type 1))
      (getElapsedMsRaw s now), ?_, ?_, ?_, ?_, ?_, ?_, ?_⟩
    · rfl
    · rfl
    · first
      | rfl
      | trivial
    · rw [callbacks_startCallbacks]
      try rfl
    · rw [seeds_of_coreView (coreView_startCallbacks ..)]
      simp [KindMap.get_set_self]
    · rw [names_of_coreView (coreView_startCallbacks ..)]
      simp only [KindMap.get_set_self]
      rfl
    · rw [disposed_of_coreView (coreView_startCallbacks ..)]
      exact hd
  · simp only [h0, if_false] at hnoconf ⊢
    rw [if_neg hnoconf]
    simp only [regLoop]
    refine ⟨mkInternalCallback spec
      (spec.name.getD (autoName spec.type (s.callbackIdSeeds.get spec.type)))
      (getElapsedMsRaw s now), ?_, ?_, ?_, ?_, ?_, ?_, ?_⟩
    · rfl
    · rfl
    · first
      | rfl
      | trivial
    · rw [callbacks_startCallbacks]
      try rfl
    · rw [seeds_of_coreView (coreView_startCallbacks ..)]
      simp [KindMap.get_set_self]
    · rw [names_of_coreView (coreView_startCallbacks ..)]
      simp only [KindMap.get_set_self]
      rfl
    · rw [disposed_of_coreView (coreView_startCallbacks ..)]
      exact hd

/-!
## Claim theorems
-/

/-- Claim C3: for every non-disposed timer, `getElapsedMs()` returns an integer
number of milliseconds: when paused it returns the accumulated total
rounded to the nearest integer, and when running it returns the
accumulated total plus `(now − unpausedAtHostTime) × speedMultiplier`,
rounded to the nearest integer. -/
theorem claim_C3 (s : TimerState) (now : ℚ) (hd : s.disposed = false) :
    (s.unpausedAt = none →
      getElapsedMs s now = .ok (round s.elapsedMs)) ∧
    (∀ u : ℚ, s.unpausedAt = some u →
      getElapsedMs s now = .ok (round (s.elapsedMs + (now - u) * s.speed))) := by
  constructor
  · intro h
    simp [getElapsedMs, getElapsedMsRaw, hd, h]
  · intro u h
    simp [getElapsedMs, getElapsedMsRaw, hd, h]

/-- Witness for C3 at concrete inputs: a fresh (paused) timer and a
running timer read at `now = 7`. -/
theorem claim_C3_witness :
    (freshTimer 1 0 1 "timer-1").disposed = false ∧
    (freshTimer 1 0 1 "timer-1").unpausedAt = none ∧
    getElapsedMs (freshTimer 1 0 1 "timer-1") 7 =
      .ok (round (freshTimer 1 0 1 "timer-1").elapsedMs) :=
  ⟨by decide, by decide, (claim_C3 (freshTimer 1 0 1 "timer-1") 7 (by decide)).1 (by decide)⟩

/-- Claim C4: for a countdown with integer total `T` (paused and not disposed
where the scenario requires it): `getTimeRemaining()` is `completeTime`
minus the engine's elapsed milliseconds; `isDone()` is true exactly when
the remaining time is ≤ 0; `Countdown.addTime(ms)` is the engine's
`addTime(-ms)`; `setTimeRemaining(ms)` is the engine's
`setTime(completeTime − ms)`; and on a paused non-disposed countdown
`setTimeRemaining(5000)` yields `getTimeRemaining() = 5000` and
`isDone() = false`. -/
theorem claim_C4 (c : CountdownState) (T : ℤ) (ms now : ℚ)
    (hT : c.completeTime = (T : ℚ))
    (hd : c.engine.disposed = false)
    (hp : c.engine.unpausedAt = none) :
    getTimeRemaining c now = .ok (c.completeTime - (getElapsedMsRaw c.engine now : ℚ)) ∧
    (∀ r : ℚ, getTimeRemaining c now = .ok r → isDone c now = .ok (decide (r ≤ 0))) ∧
    (countdownAddTime c ms false now).1.engine = (addTime c.engine (-ms) false now).1 ∧
    (setTimeRemaining c ms false now).1.engine =
      (setTime c.engine (c.completeTime - ms) false now).1 ∧
    getTimeRemaining (setTimeRemaining c 5000 false now).1 now = .ok 5000 ∧
    isDone (setTimeRemaining c 5000 false now).1 now = .ok false := by
  have hcore := setTime_paused_core c.engine (c.completeTime - 5000) now hd hp
  have hround : round ((setTime c.engine (c.completeTime - 5000) false now).1.elapsedMs)
      = T - 5000 := by
    rw [hcore.1]
    have harg : c.engine.elapsedMs + (c.completeTime - 5000 - (round c.engine.elapsedMs : ℚ))
        = c.engine.elapsedMs + (((T - 5000 : ℤ) : ℚ) - (round c.engine.elapsedMs : ℚ)) := by
      rw [hT]
      push_cast
      ring
    rw [harg, round_shift_to_int]
  have hrem : getTimeRemaining (setTimeRemaining c 5000 false now).1 now = .ok 5000 := by
    show getTimeRemaining
      ⟨(setTime c.engine (c.completeTime - 5000) false now).1, c.completeTime⟩ now = .ok 5000
    unfold getTimeRemaining getElapsedMs
    rw [hcore.2.2]
    simp only [Bool.false_eq_true, if_false]
    unfold getElapsedMsRaw
    rw [hcore.2.1, hround, hT]
    have hfive : ((T : ℚ)) - ((T - 5000 : ℤ) : ℚ) = 5000 := by
      push_cast
      ring
    rw [hfive]
  refine ⟨?_, ?_, rfl, rfl, hrem, ?_⟩
  · simp [getTimeRemaining, getElapsedMs, hd]
  · intro r hr
    unfold isDone
    rw [hr]
  · unfold isDone
    rw [hrem]
    norm_num

/-- Witness for C4 at the concrete countdown with total 10000ms: right
after construction `setTimeRemaining(5000)` yields 5000 remaining and not
done. -/
theorem claim_C4_witness :
    ((mkCountdown 1 10000 0).completeTime = ((10000 : ℤ) : ℚ) ∧
      (mkCountdown 1 10000 0).engine.disposed = false ∧
      (mkCountdown 1 10000 0).engine.unpausedAt = none) ∧
    getTimeRemaining (setTimeRemaining (mkCountdown 1 10000 0) 5000 false 0).1 0 =
      .ok 5000 ∧
    isDone (setTimeRemaining (mkCountdown 1 10000 0) 5000 false 0).1 0 = .ok false :=
  ⟨⟨by simp [mkCountdown], by with_unfolding_all decide,
      by with_unfolding_all decide⟩,
   (claim_C4 (mkCountdown 1 10000 0) 10000 0 0 (by simp [mkCountdown])
     (by with_unfolding_all decide) (by with_unfolding_all decide)).2.2.2.2.1,
   (claim_C4 (mkCountdown 1 10000 0) 10000 0 0 (by simp [mkCountdown])
     (by with_unfolding_all decide) (by with_unfolding_all decide)).2.2.2.2.2⟩

/-- Claim C5: on a countdown with `isDone()` true, `unpause()` is a complete
no-op — the state (including `unpausedAt` and the history) is returned
unchanged and no error is raised. -/
theorem claim_C5 (c : CountdownState) (now : ℚ)
    (hdone : isDone c now = .ok true) :
    countdownUnpause c now = (c, none) := by
  unfold countdownUnpause
  rw [hdone]

/-- Witness for C5: the completed countdown (`totalMs = 10000`, elapsed
10000) really is done, and unpausing it returns it unchanged. -/
theorem claim_C5_witness :
    isDone exDoneCountdown 0 = .ok true ∧
    countdownUnpause exDoneCountdown 0 = (exDoneCountdown, none) :=
  ⟨by with_unfolding_all rfl, claim_C5 exDoneCountdown 0 (by with_unfolding_all rfl)⟩

/-- Claim C6: after `dispose()`, the public operations `getElapsedMs`,
`getState`, `pause`, `unpause`, `addTime`, `setTime`, `registerCallbacks`,
`removeCallbacks` and `removeAllCallbacks` all fail with the Disposed
error leaving the state unchanged — but `setSpeedMultiplier`, whose source
lacks the `checkDisposed` guard, silently succeeds on a disposed paused
timer: it stores the new speed and appends a `setSpeed` event.  This
contradicts the claim, which demands a Disposed failure with no effect
from every public operation. -/
theorem claim_C6 :
    (∀ (s : TimerState) (now ms t : ℚ) (b : Bool) (specs : List CbSpec)
        (names : List String), s.disposed = true →
      getElapsedMs s now = .error (.disposed s.name) ∧
      getState s now = .error (.disposed s.name) ∧
      pause s b now = (s, false, some (.disposed s.name)) ∧
      unpause s now = (s, some (.disposed s.name)) ∧
      addTime s ms b now = (s, [], some (.disposed s.name)) ∧
      setTime s t b now = (s, [], some (.disposed s.name)) ∧
      registerCallbacks s specs now = (s, some (.disposed s.name)) ∧
      removeCallbacks s names = (s, some (.disposed s.name)) ∧
      removeAllCallbacks s = (s, some (.disposed s.name))) ∧
    ((setSpeedMultiplier exDisposedTimer 2 0).2 = none ∧
      (setSpeedMultiplier exDisposedTimer 2 0).1.speed = 2 ∧
      (setSpeedMultiplier exDisposedTimer 2 0).1.disposed = true ∧
      (setSpeedMultiplier exDisposedTimer 2 0).1.history ≠ exDisposedTimer.history) := by
  constructor
  · intro s now ms t b specs names hdisp
    refine ⟨?_, ?_, ?_, ?_, ?_, ?_, ?_, ?_, ?_⟩ <;>
      simp [getElapsedMs, getState, pause, unpause, addTime, setTime,
        registerCallbacks, removeCallbacks, removeAllCallbacks, hdisp]
  · refine ⟨by decide, by decide, by decide, by decide⟩

/-- Witness for C6's universally quantified part, instantiated at the
concrete disposed timer. -/
theorem claim_C6_witness :
    exDisposedTimer.disposed = true ∧
    unpause exDisposedTimer 0 = (exDisposedTimer, some (.disposed exDisposedTimer.name)) :=
  ⟨by decide,
    (claim_C6.1 exDisposedTimer 0 0 0 false [] [] (by decide)).2.2.2.1⟩

/-- Claim C9 (amended): `getState()` returns the snapshot
`{timerId, elapsedMs, isPaused, history}`; when `structuredClone` is
available the returned history is a fresh deep copy at a new address, so
mutating it (appending an event) never changes the history behind the
timer's internal address.  (As stated the claim fails: without
`structuredClone` the source falls back to returning the internal history
object itself — see the counterexample.) -/
theorem claim_C9 :
    (∀ (heap : Heap) (r : ℕ) (e : TimerEvent), r < heap.length →
      (getStateHistoryRef true heap r).2 ≠ r ∧
      heapGet (getStateHistoryRef true heap r).1 (getStateHistoryRef true heap r).2 =
        heapGet heap r ∧
      heapGet (appendEventAt (getStateHistoryRef true heap r).1
        (getStateHistoryRef true heap r).2 e) r = heapGet heap r) ∧
    (∀ (s : TimerState) (now : ℚ), s.disposed = false →
      getState s now =
        .ok { timerId := s.id, elapsedMs := getElapsedMsRaw s now,
              isPaused := s.unpausedAt.isNone, history := s.history }) := by
  constructor
  · intro heap r e hr
    unfold getStateHistoryRef
    simp only [if_true]
    refine ⟨ne_of_gt hr, ?_, ?_⟩
    · unfold heapGet
      simp [List.getD]
    · unfold appendEventAt heapSet heapGet
      rw [List.getD_eq_getElem?_getD, List.getElem?_set_ne (ne_of_gt hr),
        ← List.getD_eq_getElem?_getD]
      simp [List.getD, List.getElem?_append_left hr]
  · intro s now hd
    simp [getState, hd]

/-- Witness for C9 at a one-object heap and a fresh timer. -/
theorem claim_C9_witness :
    (0 < ([[]] : Heap).length ∧ (freshTimer 1 0 1 "timer-1").disposed = false) ∧
    heapGet (appendEventAt (getStateHistoryRef true [[]] 0).1
      (getStateHistoryRef true [[]] 0).2 exEvent) 0 = heapGet [[]] 0 ∧
    getState (freshTimer 1 0 1 "timer-1") 0 =
      .ok { timerId := (freshTimer 1 0 1 "timer-1").id,
            elapsedMs := getElapsedMsRaw (freshTimer 1 0 1 "timer-1") 0,
            isPaused := (freshTimer 1 0 1 "timer-1").unpausedAt.isNone,
            history := (freshTimer 1 0 1 "timer-1").history } :=
  ⟨⟨by decide, by decide⟩,
   (claim_C9.1 [[]] 0 exEvent (by decide)).2.2,
   claim_C9.2 (freshTimer 1 0 1 "timer-1") 0 (by decide)⟩

/-- Claim C2 (amended): on each (re)start `handleTickCallback` computes the next
firing target as the minimum of the naive target `lastExecutionMs + I` and
the ideal target `registeredAt + (⌊(E − registeredAt)/I⌋ + 1) × I` when
drift compensation is enabled, and as the naive target alone when it is
disabled.  In the spec's concrete scenario (I = 1000, registered at 0,
last fired at 1000, unpaused at elapsed 1400) the one-shot scheduled at
the unpause targets elapsed 2000 under BOTH settings — with
`disableTickDriftCompensation = true` the naive target is 1000 + 1000 =
2000, not the 2400 the claim asserts (2400 is `tick-reset` behaviour). -/
theorem claim_C2 :
    (∀ (cb : InternalCallback) (elapsed : ℤ),
      (cb.disableTickDriftCompensation = false →
        nextExecutionTimeOf cb elapsed =
          min (cb.lastExecutionMs + cb.timeMs)
            (cb.registeredAt +
              ((⌊((elapsed : ℚ) - cb.registeredAt) / cb.timeMs⌋ : ℚ) + 1) * cb.timeMs)) ∧
      (cb.disableTickDriftCompensation = true →
        nextExecutionTimeOf cb elapsed = cb.lastExecutionMs + cb.timeMs)) ∧
    (∀ dis : Bool,
      ((unpause (exTickState dis) 100).1.pendingTimeouts.map
        (fun p => (p.2.cb.timeMs, p.2.delayMs))) = [(2000, 600)]) := by
  constructor
  · intro cb elapsed
    constructor
    · intro h
      unfold nextExecutionTimeOf
      simp only [h, Bool.false_eq_true, if_false]
      rcases le_or_lt (cb.lastExecutionMs + cb.timeMs)
          (cb.registeredAt +
            ((⌊((elapsed : ℚ) - cb.registeredAt) / cb.timeMs⌋ : ℚ) + 1) * cb.timeMs) with h' | h'
      · rw [if_neg (by linarith), min_eq_left h']
      · rw [if_pos (by linarith), min_eq_right h'.le]
    · intro h
      unfold nextExecutionTimeOf
      simp only [h, if_true]
  · intro dis
    cases dis
    · with_unfolding_all decide
    · with_unfolding_all decide

/-- Witness for C2's drift-compensated formula at the scenario's concrete
callback and elapsed time. -/
theorem claim_C2_witness :
    (exTickCb false).disableTickDriftCompensation = false ∧
    nextExecutionTimeOf (exTickCb false) 1400 =
      min ((exTickCb false).lastExecutionMs + (exTickCb false).timeMs)
        ((exTickCb false).registeredAt +
          ((⌊(((1400 : ℤ) : ℚ) - (exTickCb false).registeredAt) /
            (exTickCb false).timeMs⌋ : ℚ) + 1) * (exTickCb false).timeMs) :=
  ⟨by decide, (claim_C2.1 (exTickCb false) 1400).1 (by decide)⟩

/-- Counterexample to C2: with `disableTickDriftCompensation = true` the
scenario's unpause at elapsed 1400 schedules the next tick firing at
target 2000 (delay 600), not at 2400 as the claim asserts. -/
theorem claim_C2_counterexample :
    ((unpause (exTickState true) 100).1.pendingTimeouts.map
      (fun p => (p.2.cb.timeMs, p.2.delayMs))) = [(2000, 600)] ∧
    nextExecutionTimeOf (exTickCb true) 1400 = 2000 ∧
    (2000 : ℚ) ≠ 2400 := by
  refine ⟨by with_unfolding_all decide, by with_unfolding_all decide,
    by with_unfolding_all decide⟩

/-- Claim C1: `addTime(ms, suppressCallbacks=false)` fires exactly the
type-`"checkpoint"` callbacks whose `timeMs` target lies in the half-open
interval `(oldElapsed, oldElapsed + ms]` (each exactly once), fires them
in ascending `timeMs` order, fires none of them on a backward jump
(`ms ≤ 0` — so a checkpoint crossed backward and never re-crossed forward
is never re-fired by any call), and `setTime(t)` fires exactly what
`addTime(t − oldElapsed)` fires.  (`checkpoint-kind` is formalised as the
kind `"checkpoint"`, matching the source's filter; `checkpoint-once`
callbacks are not walked by `_addTime`.) -/
theorem claim_C1 (s : TimerState) (ms now : ℚ) (hd : s.disposed = false) :
    (∃ l : List InternalCallback,
      (addTime s ms false now).2.1 = l.map (fun cb => cb.name) ∧
      l.Perm ((s.callbacks.filter (fun c => c.type = CbType.checkpoint)).filter
        (fun cb => (getElapsedMsRaw s now : ℚ) < cb.timeMs ∧
          cb.timeMs ≤ (getElapsedMsRaw s now : ℚ) + ms)) ∧
      l.Sorted cbTimeLE) ∧
    (∀ n : String, n ∈ (addTime s ms false now).2.1 ↔
      ∃ cb : InternalCallback, cb ∈ s.callbacks ∧ cb.type = CbType.checkpoint ∧
        (getElapsedMsRaw s now : ℚ) < cb.timeMs ∧
        cb.timeMs ≤ (getElapsedMsRaw s now : ℚ) + ms ∧ cb.name = n) ∧
    (ms ≤ 0 → (addTime s ms false now).2.1 = []) ∧
    ((setTime s (ms + (getElapsedMsRaw s now : ℚ)) false now).2.1 =
      (addTime s ms false now).2.1) := by
  have hf := addTime_fired s ms now hd
  refine ⟨?_, ?_, ?_, ?_⟩
  · refine ⟨(List.insertionSort cbTimeLE
        (s.callbacks.filter (fun c => c.type = CbType.checkpoint))).filter
        (fun cb => (getElapsedMsRaw s now : ℚ) < cb.timeMs ∧
          cb.timeMs ≤ (getElapsedMsRaw s now : ℚ) + ms), hf, ?_, ?_⟩
    · exact (List.perm_insertionSort cbTimeLE _).filter _
    · exact List.Pairwise.sublist (List.filter_sublist _)
        (List.sorted_insertionSort cbTimeLE _)
  · intro n
    rw [hf]
    simp only [List.mem_map, List.mem_filter, List.mem_insertionSort,
      decide_eq_true_eq]
    constructor
    · rintro ⟨cb, ⟨⟨hmem, htype⟩, hint⟩, hn⟩
      exact ⟨cb, hmem, htype, hint.1, hint.2, hn⟩
    · rintro ⟨cb, hmem, htype, h1, h2, hn⟩
      exact ⟨cb, ⟨⟨hmem, htype⟩, h1, h2⟩, hn⟩
  · intro hms
    rw [hf]
    have hnil : (List.insertionSort cbTimeLE
        (s.callbacks.filter (fun c => c.type = CbType.checkpoint))).filter
        (fun cb => (getElapsedMsRaw s now : ℚ) < cb.timeMs ∧
          cb.timeMs ≤ (getElapsedMsRaw s now : ℚ) + ms) = [] := by
      rw [List.filter_eq_nil_iff]
      intro cb _
      simp only [decide_eq_true_eq, not_and]
      intro h1 h2
      linarith
    rw [hnil]
    rfl
  · rw [setTime_fired s _ now hd]
    have harg : ms + (getElapsedMsRaw s now : ℚ) - (getElapsedMsRaw s now : ℚ) = ms := by
      ring
    rw [harg]

/-- Witness for C1 on the paused timer with checkpoints at 5, 3 and 8
(registered in that order): `addTime(6)` from elapsed 0 fires `"b"`
(target 3) then `"a"` (target 5) in ascending target order and skips
`"c"` (target 8); `addTime(-2)` fires nothing. -/
theorem claim_C1_witness :
    exWalkState.disposed = false ∧
    (addTime exWalkState 6 false 0).2.1 = ["b", "a"] ∧
    ((-2 : ℚ) ≤ 0 → (addTime exWalkState (-2) false 0).2.1 = []) ∧
    ((setTime exWalkState (6 + (getElapsedMsRaw exWalkState 0 : ℚ)) false 0).2.1 =
      (addTime exWalkState 6 false 0).2.1) :=
  ⟨by decide, by with_unfolding_all decide,
   (claim_C1 exWalkState (-2) 0 (by decide)).2.2.1,
   (claim_C1 exWalkState 6 0 (by decide)).2.2.2⟩

/-- Claim C7: registering a callback whose (explicit or auto-generated) name is
already taken for that kind fails with the NameConflict error (carrying
the kind and the supplied name) and leaves the state — registry, name
sets and sequence counters — exactly unchanged; in particular, after a
successful registration under an explicit name, re-registering the same
name and kind fails and has no effect on state. -/
theorem claim_C7 :
    (∀ (s : TimerState) (spec : CbSpec) (now : ℚ),
      s.disposed = false →
      s.callbackIdSeeds.get spec.type ≠ 0 →
      spec.name.getD (autoName spec.type (s.callbackIdSeeds.get spec.type))
        ∈ s.callbackNames.get spec.type →
      registerCallbacks s [spec] now = (s, some (.nameConflict spec.type spec.name))) ∧
    (∀ (s : TimerState) (spec₁ spec₂ : CbSpec) (n : String) (now : ℚ),
      s.disposed = false →
      spec₁.name = some n → spec₂.name = some n → spec₂.type = spec₁.type →
      (registerCallbacks s [spec₁] now).2 = none →
      registerCallbacks (registerCallbacks s [spec₁] now).1 [spec₂] now =
        ((registerCallbacks s [spec₁] now).1,
         some (.nameConflict spec₂.type (some n)))) := by
  constructor
  · exact register_single_conflict
  · intro s spec₁ spec₂ n now hd h1 h2 ht hsucc
    by_cases hc : spec₁.name.getD (autoName spec₁.type
        (if s.callbackIdSeeds.get spec₁.type = 0 then 1
          else s.callbackIdSeeds.get spec₁.type)) ∈
        (if s.callbackIdSeeds.get spec₁.type = 0 then []
          else s.callbackNames.get spec₁.type)
    · exfalso
      have h0 : s.callbackIdSeeds.get spec₁.type ≠ 0 := by
        intro h
        rw [h] at hc
        simp at hc
      simp only [h0, if_false] at hc
      rw [register_single_conflict s spec₁ now hd h0 hc] at hsucc
      simp at hsucc
    · obtain ⟨cb, hname, _, _, _, hseeds, hnames, hdisp⟩ :=
        register_single_success s spec₁ now hd hc
      have hcbn : cb.name = n := by
        rw [hname, h1]
        rfl
      have hs2 : (registerCallbacks s [spec₁] now).1.callbackIdSeeds.get spec₂.type ≠ 0 := by
        rw [ht, hseeds]
        omega
      have hc2 : spec₂.name.getD (autoName spec₂.type
          ((registerCallbacks s [spec₁] now).1.callbackIdSeeds.get spec₂.type))
          ∈ (registerCallbacks s [spec₁] now).1.callbackNames.get spec₂.type := by
        rw [h2, ht, hnames]
        show n ∈ setAdd _ cb.name
        rw [hcbn]
        exact mem_setAdd_self _ n
      have := register_single_conflict _ spec₂ now hdisp hs2 hc2
      rw [h2] at this
      exact this

/-- Witness for C7: on the timer already holding the explicit name
`"checkpoint-2"`, registering that checkpoint name again fails with the
NameConflict error and returns the state unchanged. -/
theorem claim_C7_witness :
    (exSeedTimer.disposed = false ∧
      exSeedTimer.callbackIdSeeds.get CbType.checkpoint ≠ 0 ∧
      (Option.getD (some "checkpoint-2")
          (autoName CbType.checkpoint (exSeedTimer.callbackIdSeeds.get CbType.checkpoint)))
        ∈ exSeedTimer.callbackNames.get CbType.checkpoint) ∧
    registerCallbacks exSeedTimer
        [{ type := CbType.checkpoint, timeMs := 50, name := some "checkpoint-2" }] 0 =
      (exSeedTimer, some (.nameConflict CbType.checkpoint (some "checkpoint-2"))) :=
  ⟨⟨by with_unfolding_all decide, by with_unfolding_all decide,
      by with_unfolding_all decide⟩,
    claim_C7.1 exSeedTimer
      { type := CbType.checkpoint, timeMs := 50, name := some "checkpoint-2" } 0
      (by with_unfolding_all decide) (by with_unfolding_all decide)
      (by with_unfolding_all decide)⟩

/-- Claim C10: every successful registration advances the kind's sequence
counter by one — also when the entry carried an explicit name — the
auto-generated name of a registration that omits the name is
`` `{kind}-{seed}` `` for the seed the counter holds at that point (so the
k-th registration of a kind auto-names as `{kind}-{k}`), and consequently
an unnamed registration can collide with an earlier explicitly named one:
on the timer whose first checkpoint was explicitly named
`"checkpoint-2"`, the second (unnamed) checkpoint registration fails with
NameConflict. -/
theorem claim_C10 :
    (∀ (s : TimerState) (spec : CbSpec) (now : ℚ),
      (registerCallbacks s [spec] now).2 = none →
      (registerCallbacks s [spec] now).1.callbackIdSeeds.get spec.type =
        (if s.callbackIdSeeds.get spec.type = 0 then 1
          else s.callbackIdSeeds.get spec.type) + 1) ∧
    (∀ (s : TimerState) (spec : CbSpec) (now : ℚ),
      spec.name = none →
      (registerCallbacks s [spec] now).2 = none →
      ∃ cb : InternalCallback,
        (registerCallbacks s [spec] now).1.callbacks = s.callbacks ++ [cb] ∧
        cb.name = autoName spec.type
          (if s.callbackIdSeeds.get spec.type = 0 then 1
            else s.callbackIdSeeds.get spec.type)) ∧
    registerCallbacks exSeedTimer [{ type := CbType.checkpoint, timeMs := 300 }] 0 =
      (exSeedTimer, some (.nameConflict CbType.checkpoint none)) := by
  refine ⟨?_, ?_, ?_⟩
  · intro s spec now hsucc
    cases hd : s.disposed with
    | true =>
      exfalso
      unfold registerCallbacks at hsucc
      rw [hd] at hsucc
      simp at hsucc
    | false =>
      by_cases hc : spec.name.getD (autoName spec.type
          (if s.callbackIdSeeds.get spec.type = 0 then 1
            else s.callbackIdSeeds.get spec.type)) ∈
          (if s.callbackIdSeeds.get spec.type = 0 then []
            else s.callbackNames.get spec.type)
      · exfalso
        have h0 : s.callbackIdSeeds.get spec.type ≠ 0 := by
          intro h
          rw [h] at hc
          simp at hc
        simp only [h0, if_false] at hc
        rw [register_single_conflict s spec now hd h0 hc] at hsucc
        simp at hsucc
      · obtain ⟨cb, _, _, _, _, hseeds, _, _⟩ := register_single_success s spec now hd hc
        exact hseeds
  · intro s spec now hnone hsucc
    cases hd : s.disposed with
    | true =>
      exfalso
      unfold registerCallbacks at hsucc
      rw [hd] at hsucc
      simp at hsucc
    | false =>
      by_cases hc : spec.name.getD (autoName spec.type
          (if s.callbackIdSeeds.get spec.type = 0 then 1
            else s.callbackIdSeeds.get spec.type)) ∈
          (if s.callbackIdSeeds.get spec.type = 0 then []
            else s.callbackNames.get spec.type)
      · exfalso
        have h0 : s.callbackIdSeeds.get spec.type ≠ 0 := by
          intro h
          rw [h] at hc
          simp at hc
        simp only [h0, if_false] at hc
        rw [register_single_conflict s spec now hd h0 hc] at hsucc
        simp at hsucc
      · obtain ⟨cb, hname, _, _, hcbs, _, _, _⟩ := register_single_success s spec now hd hc
        refine ⟨cb, hcbs, ?_⟩
        rw [hname, hnone]
        rfl
  · with_unfolding_all decide

/-- Witness for C10: on a fresh timer an unnamed checkpoint registration
succeeds and the checkpoint seed advances from unset (0, read as 1) to 2,
and an explicitly named registration advances it too. -/
theorem claim_C10_witness :
    ((registerCallbacks (freshTimer 1 0 1 "timer-1")
        [{ type := CbType.checkpoint, timeMs := 100 }] 0).2 = none ∧
      (({ type := CbType.checkpoint, timeMs := 100 } : CbSpec).name = none) ∧
      (registerCallbacks (freshTimer 1 0 1 "timer-1")
        [{ type := CbType.checkpoint, timeMs := 100, name := some "checkpoint-2" }] 0).2
        = none) ∧
    (registerCallbacks (freshTimer 1 0 1 "timer-1")
        [{ type := CbType.checkpoint, timeMs := 100 }] 0).1.callbackIdSeeds.get
        CbType.checkpoint =
      (if (freshTimer 1 0 1 "timer-1").callbackIdSeeds.get CbType.checkpoint = 0 then 1
        else (freshTimer 1 0 1 "timer-1").callbackIdSeeds.get CbType.checkpoint) + 1 ∧
    (registerCallbacks (freshTimer 1 0 1 "timer-1")
        [{ type := CbType.checkpoint, timeMs := 100, name := some "checkpoint-2" }]
        0).1.callbackIdSeeds.get CbType.checkpoint =
      (if (freshTimer 1 0 1 "timer-1").callbackIdSeeds.get CbType.checkpoint = 0 then 1
        else (freshTimer 1 0 1 "timer-1").callbackIdSeeds.get CbType.checkpoint) + 1 ∧
    ∃ cb : InternalCallback,
      (registerCallbacks (freshTimer 1 0 1 "timer-1")
        [{ type := CbType.checkpoint, timeMs := 100 }] 0).1.callbacks =
        (freshTimer 1 0 1 "timer-1").callbacks ++ [cb] ∧
      cb.name = autoName CbType.checkpoint
        (if (freshTimer 1 0 1 "timer-1").callbackIdSeeds.get CbType.checkpoint = 0 then 1
          else (freshTimer 1 0 1 "timer-1").callbackIdSeeds.get CbType.checkpoint) :=
  ⟨⟨by with_unfolding_all decide, by decide, by with_unfolding_all decide⟩,
   claim_C10.1 (freshTimer 1 0 1 "timer-1")
     { type := CbType.checkpoint, timeMs := 100 } 0 (by with_unfolding_all decide),
   claim_C10.1 (freshTimer 1 0 1 "timer-1")
     { type := CbType.checkpoint, timeMs := 100, name := some "checkpoint-2" } 0
     (by with_unfolding_all decide),
   claim_C10.2.1 (freshTimer 1 0 1 "timer-1")
     { type := CbType.checkpoint, timeMs := 100 } 0 (by decide)
     (by with_unfolding_all decide)⟩

/-- Claim C8 (amended): each of the three host-registration maps binds a name at
most once (they are maps), and the clearing half of the claim holds: a
suppressed-update pause (the form `_addTime` uses internally) empties all
three maps; an unsuppressed pause empties the timeout and interval maps
and leaves frame entries only for `executeOnUpdate` frame-synced callbacks
(which it re-registers immediately after clearing); and removing a
callback clears its name from all three maps.  (The cross-map "at most one
live entry per name" half of the claim is refuted by the counterexample: a
frame-synced repeating tick holds a live interval and a live frame entry
at once.) -/
theorem claim_C8 :
    (∀ (s : TimerState) (u now : ℚ), s.unpausedAt = some u →
      (pauseBody s true now).1.timeouts = [] ∧
      (pauseBody s true now).1.intervals = [] ∧
      (pauseBody s true now).1.rafs = []) ∧
    (∀ (s : TimerState) (u now : ℚ), s.unpausedAt = some u →
      (pauseBody s false now).1.timeouts = [] ∧
      (pauseBody s false now).1.intervals = [] ∧
      ∀ p ∈ (pauseBody s false now).1.rafs, ∃ cb, cb ∈ s.callbacks ∧
        cb.executeOnUpdate = true ∧ cb.requireAnimationFrame = true ∧ p.1 = cb.name) ∧
    (∀ (s : TimerState) (names : List String) (n : String),
      s.disposed = false → n ∈ names →
      mapGet (removeCallbacks s names).1.timeouts n = none ∧
      mapGet (removeCallbacks s names).1.intervals n = none ∧
      mapGet (removeCallbacks s names).1.rafs n = none) := by
  refine ⟨?_, ?_, ?_⟩
  · intro s u now h
    unfold pauseBody
    rw [h]
    simp only [if_true]
    exact ⟨clearTimeouts_false_timeouts _, clearTimeouts_false_intervals _,
      clearTimeouts_false_rafs _⟩
  · intro s u now h
    unfold pauseBody
    rw [h]
    simp only [Bool.false_eq_true, if_false]
    refine ⟨?_, ?_, ?_⟩
    · unfold executeUpdateCallbacks
      rw [foldl_pres (fun st => st.timeouts) _ (timeouts_executeUpdateStep now)]
      exact clearTimeouts_false_timeouts _
    · unfold executeUpdateCallbacks
      rw [foldl_pres (fun st => st.intervals) _ (intervals_executeUpdateStep now)]
      exact clearTimeouts_false_intervals _
    · intro p hp
      unfold executeUpdateCallbacks at hp
      rcases rafs_executeUpdate_origin now _ _ p hp with h' | h'
      · rw [clearTimeouts_false_rafs] at h'
        exact absurd h' (List.not_mem_nil p)
      · rcases h' with ⟨cb, hm, h1, h2, h3⟩
        rw [callbacks_clearTimeouts] at hm
        exact ⟨cb, hm, h1, h2, h3⟩
  · intro s names n hd hn
    unfold removeCallbacks
    rw [hd]
    simp only [Bool.false_eq_true, if_false]
    exact removeFold_clears names s n hn

/-- Witness for C8 on a running timer carrying one frame-synced
`executeOnUpdate` tick callback and populated maps: a suppressed pause
leaves all three maps empty, and removing the callback's name clears it
from the maps. -/
theorem claim_C8_witness :
    (exCrossMapState.unpausedAt = some 0 ∧ exCrossMapState.disposed = false ∧
      "t" ∈ ["t"]) ∧
    ((pauseBody exCrossMapState true 2000).1.timeouts = [] ∧
      (pauseBody exCrossMapState true 2000).1.intervals = [] ∧
      (pauseBody exCrossMapState true 2000).1.rafs = []) ∧
    (mapGet (removeCallbacks exCrossMapState ["t"]).1.timeouts "t" = none ∧
      mapGet (removeCallbacks exCrossMapState ["t"]).1.intervals "t" = none ∧
      mapGet (removeCallbacks exCrossMapState ["t"]).1.rafs "t" = none) :=
  ⟨⟨by with_unfolding_all decide, by with_unfolding_all decide, by decide⟩,
   claim_C8.1 exCrossMapState 0 2000 (by with_unfolding_all decide),
   claim_C8.2.2 exCrossMapState ["t"] "t" (by with_unfolding_all decide) (by decide)⟩

/-- Counterexample to C8: the reachable state built by registering a
frame-synced repeating callback named `"t"`, unpausing, and letting the
host interval fire once holds TWO simultaneously live entries for `"t"` —
one in the interval map and one in the frame map, both of whose handles
are still pending on the host — refuting "at most one live entry across
the three maps". -/
theorem claim_C8_counterexample :
    mapGet exCrossMapState.intervals "t" = some 1 ∧
    mapGet exCrossMapState.rafs "t" = some 2 ∧
    (1, ({ cbName := "t", intervalMs := 1000 } : IntervalPayload)) ∈
      exCrossMapState.pendingIntervals ∧
    (2, RafPayload.deferredExec "t" none 1000) ∈ exCrossMapState.pendingRafs := by
  refine ⟨by with_unfolding_all decide, by with_unfolding_all decide,
    by with_unfolding_all decide, by with_unfolding_all decide⟩

/-- Counterexample to C9: with `structuredClone` unavailable, `getState`
returns the internal history object itself (same address), and appending
an event to the returned history changes the timer's internal history —
refuting "mutating the returned value never changes the timer's internal
history". -/
theorem claim_C9_counterexample :
    (getStateHistoryRef false [[]] 0).2 = 0 ∧
    heapGet (appendEventAt (getStateHistoryRef false [[]] 0).1
      (getStateHistoryRef false [[]] 0).2 exEvent) 0 = [exEvent] ∧
    heapGet [[]] 0 = [] ∧
    ([exEvent] : List TimerEvent) ≠ [] := by
  refine ⟨by decide, by with_unfolding_all decide, by decide, by decide⟩

end ManagedTimer
